import Mathlib

/-!
core/quic: path migration, session manager and SNI sealing suite

A shallow embedding of `core/quic/migration.go`, `core/quic/manager.go` and
`core/quic/ech.go`.

* Go `string` values are Lean `String`s.  The byte searches of
  `net.SplitHostPort` look only for the ASCII bytes `:`, `[` and `]`, which
  never occur inside a multi-byte UTF-8 sequence, so searching and cutting the
  character list cuts the string at the same places as the byte-indexed code.
* Go `error` values are `Option GoError`, `none` being `nil`.
* Pointer receivers (`*Migrator`, `*Manager`) become explicit state passing.
* The two capabilities `TokenIssuer` and `PathDialer` are external.  They are
  state transformers over an arbitrary external state `σ`; every call made to
  them is appended to a call log kept beside that state.
* The read/write mutexes are not modelled: calls are sequential.
* In the sealing suite a Go `string` is the list of its bytes, since `SealSNI`
  and `OpenSNI` convert between `string` and `[]byte`; the library calls
  (`crypto/aes`, `crypto/cipher`, `encoding/base64`) are embedded from the Go
  standard library, and the random source is an input.
-/

namespace Quic

/-! ## Errors -/

/-- Go error values: `errors.New(text)` and the `*fmt.wrapError` built by
`fmt.Errorf` with one `%w` verb.  Sentinels are identified by their text (the
package's sentinels have pairwise different texts). -/
inductive GoError where
  | errorsNew (text : String)
  | wrapError (msg : String) (err : GoError)
  deriving DecidableEq, Repr

/-- The `Error()` method. -/
def GoError.Error : GoError → String
  | .errorsNew text => text
  | .wrapError msg _ => msg

/-- The `Unwrap()` method, `none` where the error wraps nothing. -/
def GoError.Unwrap : GoError → Option GoError
  | .errorsNew _ => none
  | .wrapError _ err => some err

/-- `fmt.Errorf(lead + "%w", err)`: the message is the format's text followed
by `err.Error()`, and the result unwraps to `err`. -/
def fmtErrorfW (lead : String) (err : GoError) : GoError :=
  .wrapError (lead ++ err.Error) err

/-- `errors.Is(err, target)` for comparable errors: walk the `Unwrap` chain. -/
def errorsIs : GoError → GoError → Bool
  | .errorsNew text, target => decide (GoError.errorsNew text = target)
  | .wrapError msg err, target =>
      decide (GoError.wrapError msg err = target) || errorsIs err target

def ErrInvalidTargetAddress : GoError := .errorsNew "invalid target address"
def ErrNoMigrationToken : GoError := .errorsNew "no migration token"
def ErrManagerClosed : GoError := .errorsNew "quic manager closed"
def ErrInvalidServerName : GoError := .errorsNew "invalid server name"
def ErrInvalidBindAddress : GoError := .errorsNew "invalid bind address"

/-! ## `net.SplitHostPort` (Go standard library, `net/ipsock.go`) -/

/-- `bytealg.IndexByteString`: position of the first `c`, `none` for `-1`. -/
def indexByteString : List Char → Char → Option Nat
  | [], _ => none
  | x :: xs, c =>
      if x = c then some 0
      else match indexByteString xs c with
        | none => none
        | some n => some (n + 1)

/-- `bytealg.LastIndexByteString`: position of the last `c`, `none` for `-1`. -/
def lastIndexByteString : List Char → Char → Option Nat
  | [], _ => none
  | x :: xs, c =>
      match lastIndexByteString xs c with
      | some n => some (n + 1)
      | none => if x = c then some 0 else none

/-- `net.AddrError`. -/
structure AddrError where
  Err : String
  Addr : String
  deriving DecidableEq, Repr

def missingPort : String := "missing port in address"
def tooManyColons : String := "too many colons in address"

/-- The closure `addrErr` of `SplitHostPort`. -/
def addrErr (addr : List Char) (why : String) : Except AddrError (String × String) :=
  .error { Err := why, Addr := String.mk addr }

/-- The tail of `SplitHostPort`, common to both branches of its `if`: the two
stray-bracket checks on `hostport[j:]` and `hostport[k:]`, then
`port = hostport[i+1:]`. -/
def splitHostPortRest (hostport host : List Char) (i j k : Nat) :
    Except AddrError (String × String) :=
  if (indexByteString (hostport.drop j) '[').isSome then
    addrErr hostport "unexpected '[' in address"
  else if (indexByteString (hostport.drop k) ']').isSome then
    addrErr hostport "unexpected ']' in address"
  else
    .ok (String.mk host, String.mk (hostport.drop (i + 1)))

/-- `net.SplitHostPort(hostport)`.  The port is whatever follows the last
colon; it is not parsed. -/
def SplitHostPort (hostport : String) : Except AddrError (String × String) :=
  let hp := hostport.data
  match lastIndexByteString hp ':' with
  | none => addrErr hp missingPort
  | some i =>
    if hp.head? = some '[' then
      match indexByteString hp ']' with
      | none => addrErr hp "missing ']' in address"
      | some end_ =>
        if end_ + 1 = hp.length then
          addrErr hp missingPort
        else if end_ + 1 = i then
          splitHostPortRest hp ((hp.take end_).drop 1) i 1 (end_ + 1)
        else if hp.get? (end_ + 1) = some ':' then
          addrErr hp tooManyColons
        else
          addrErr hp missingPort
    else
      let host := hp.take i
      if (indexByteString host ':').isSome then
        addrErr hp tooManyColons
      else
        splitHostPortRest hp host i 0 0

/-! ## `migration.go` -/

/-- `ValidateDirectPath` checks host:port formatting for the target. -/
def ValidateDirectPath (target : String) : Option GoError :=
  if target = "" then
    some ErrInvalidTargetAddress
  else
    match SplitHostPort target with
    | .error _ => some ErrInvalidTargetAddress
    | .ok _ => none

/-- A `context.Context`.  The package only hands it to the capabilities. -/
structure Context where
  id : Nat
  deriving DecidableEq, Repr

/-- `TokenIssuer` retrieves migration tokens from the control path.  The
implementation is external: a transformer of the external state `σ`
returning the Go pair `(string, error)`. -/
structure TokenIssuer (σ : Type) where
  IssueToken : Context → String → σ → (String × Option GoError) × σ

/-- `PathDialer` opens and validates direct path candidates. -/
structure PathDialer (σ : Type) where
  Open : Context → String → String → σ → Option GoError × σ

/-- One call made to a capability, with its arguments. -/
inductive Call where
  | issueToken (ctx : Context) (sessionID : String)
  | dialerOpen (ctx : Context) (targetAddr : String) (token : String)
  deriving DecidableEq, Repr

/-- The external state together with the log of capability calls, oldest
first. -/
structure World (σ : Type) where
  ext : σ
  calls : List Call

/-- `MigrationConfig` describes migration behavior for a session.  A
`time.Duration` is an `int64` count of nanoseconds. -/
structure MigrationConfig where
  SessionID : String
  Target : String
  Timeout : Int
  deriving DecidableEq, Repr

/-- `MigrationConfig.Validate`. -/
def MigrationConfig.Validate (c : MigrationConfig) : Option GoError :=
  if c.SessionID = "" then
    some ErrNoMigrationToken
  else
    match ValidateDirectPath c.Target with
    | some err => some err
    | none => none

/-- `Migrator` controls token acquisition and direct-path opening. -/
structure Migrator (σ : Type) where
  issuer : TokenIssuer σ
  dialer : PathDialer σ
  token : String

/-- `NewMigrator`: the token field has the zero value `""`. -/
def NewMigrator {σ : Type} (issuer : TokenIssuer σ) (dialer : PathDialer σ) : Migrator σ :=
  { issuer := issuer, dialer := dialer, token := "" }

/-- The call `m.issuer.IssueToken(ctx, sessionID)`, logged. -/
def Migrator.callIssueToken {σ : Type} (m : Migrator σ) (ctx : Context) (sessionID : String)
    (w : World σ) : (String × Option GoError) × World σ :=
  let r := m.issuer.IssueToken ctx sessionID w.ext
  (r.1, { ext := r.2, calls := w.calls ++ [Call.issueToken ctx sessionID] })

/-- The call `m.dialer.Open(ctx, targetAddr, token)`, logged. -/
def Migrator.callOpen {σ : Type} (m : Migrator σ) (ctx : Context) (targetAddr token : String)
    (w : World σ) : Option GoError × World σ :=
  let r := m.dialer.Open ctx targetAddr token w.ext
  (r.1, { ext := r.2, calls := w.calls ++ [Call.dialerOpen ctx targetAddr token] })

/-- `(*Migrator).RequestMigrationToken`: the returned pair, the migrator and
the world afterwards. -/
def Migrator.RequestMigrationToken {σ : Type} (m : Migrator σ) (ctx : Context)
    (sessionID : String) (w : World σ) : (String × Option GoError) × Migrator σ × World σ :=
  let r := m.callIssueToken ctx sessionID w
  match r.1.2 with
  | some err => (("", some (fmtErrorfW "request migration token: " err)), m, r.2)
  | none => ((r.1.1, none), { m with token := r.1.1 }, r.2)

/-- `(*Migrator).OpenDirectPath`: the returned error, the migrator and the
world afterwards. -/
def Migrator.OpenDirectPath {σ : Type} (m : Migrator σ) (ctx : Context)
    (targetAddr : String) (w : World σ) : Option GoError × Migrator σ × World σ :=
  match ValidateDirectPath targetAddr with
  | some err => (some err, m, w)
  | none =>
    let token := m.token
    if token = "" then
      (some ErrNoMigrationToken, m, w)
    else
      let r := m.callOpen ctx targetAddr token w
      match r.1 with
      | some err => (some (fmtErrorfW "open direct path: " err), m, r.2)
      | none => (none, m, r.2)

/-! ## `manager.go` -/

/-- `ManagerConfig` defines startup settings for a QUIC manager. -/
structure ManagerConfig where
  ServerName : String
  BindAddress : String
  EnableECH : Bool
  IdleTimeout : Int
  deriving DecidableEq, Repr

/-- `Manager` is the entry point for QUIC transport lifecycle. -/
structure Manager where
  cfg : ManagerConfig
  closed : Bool
  started : Bool
  deriving DecidableEq, Repr

/-- `(*Manager).MigrateConnection` (in `migration.go`).  The receiver is not
read or written. -/
def Manager.MigrateConnection {σ : Type} (_m : Manager) (ctx : Context)
    (migrator : Migrator σ) (cfg : MigrationConfig) (w : World σ) :
    Option GoError × Migrator σ × World σ :=
  match cfg.Validate with
  | some err => (some err, migrator, w)
  | none =>
    let r := migrator.RequestMigrationToken ctx cfg.SessionID w
    match r.1.2 with
    | some err => (some err, r.2.1, r.2.2)
    | none =>
      let o := r.2.1.OpenDirectPath ctx cfg.Target r.2.2
      match o.1 with
      | some err => (some err, o.2.1, o.2.2)
      | none => (none, o.2.1, o.2.2)

/-- `time.Second`, in nanoseconds. -/
def Second : Int := 1000000000

/-- `ManagerConfig.Validate` ensures config is usable before manager creation.
The receiver is passed by value: the result is the returned error together
with the method's own copy of the receiver as it stands at the return; the
caller's config is not written. -/
def ManagerConfig.Validate (c : ManagerConfig) : Option GoError × ManagerConfig :=
  if c.ServerName = "" then
    (some ErrInvalidServerName, c)
  else if c.BindAddress = "" then
    (some ErrInvalidBindAddress, c)
  else if c.IdleTimeout ≤ 0 then
    (none, { c with IdleTimeout := 30 * Second })
  else
    (none, c)

/-- `NewManager`: the Go pair `(*Manager, error)`, `none` for a nil pointer. -/
def NewManager (cfg : ManagerConfig) : Option Manager × Option GoError :=
  match (cfg.Validate).1 with
  | some err => (none, some err)
  | none =>
    let cfg1 := if cfg.IdleTimeout ≤ 0 then { cfg with IdleTimeout := 30 * Second } else cfg
    (some { cfg := cfg1, closed := false, started := false }, none)

/-- `(*Manager).Start`: the returned error and the manager afterwards. -/
def Manager.Start (m : Manager) (_ctx : Context) : Option GoError × Manager :=
  if m.closed then
    (some ErrManagerClosed, m)
  else
    (none, { m with started := true })

/-- `(*Manager).Close`. -/
def Manager.Close (m : Manager) : Manager :=
  { m with closed := true }

/-- `(*Manager).IsStarted`. -/
def Manager.IsStarted (m : Manager) : Bool :=
  m.started

/-- `(*Manager).Config`. -/
def Manager.Config (m : Manager) : ManagerConfig :=
  m.cfg

/-- The statement `err := c.Validate()` at a call site that holds `c` in a
variable of type `ManagerConfig`: Go copies the receiver into the method and
drops the copy at the return.  The result is the returned error and the value
of the caller's variable after the call. -/
def ManagerConfig.callValidate (c : ManagerConfig) : Option GoError × ManagerConfig :=
  ((c.Validate).1, c)

/-- A lifecycle call made on a manager: `Start(ctx)` or `Close()`. -/
inductive LifecycleCall where
  | Start (ctx : Context)
  | Close
  deriving DecidableEq, Repr

/-- One lifecycle call: what it returns (`Close` returns nothing, written
`none`) and the manager afterwards. -/
def Manager.perform (m : Manager) : LifecycleCall → Option GoError × Manager
  | .Start ctx => m.Start ctx
  | .Close => (none, m.Close)

/-- A sequence of lifecycle calls, first call first: what each call returned
and the manager after the last one. -/
def Manager.performAll (m : Manager) : List LifecycleCall → List (Option GoError) × Manager
  | [] => ([], m)
  | c :: cs =>
      ((m.perform c).1 :: ((m.perform c).2.performAll cs).1,
        ((m.perform c).2.performAll cs).2)

/-- What a lifecycle call returns on a closed manager. -/
def closedAnswer : LifecycleCall → Option GoError
  | .Start _ => some ErrManagerClosed
  | .Close => none

/-- The calls of a sequence that come before its first `Close`. -/
def beforeFirstClose (cs : List LifecycleCall) : List LifecycleCall :=
  cs.takeWhile (fun c => decide (c ≠ LifecycleCall.Close))

/-- Whether a call is a `Start`. -/
def LifecycleCall.isStart : LifecycleCall → Bool
  | .Start _ => true
  | .Close => false

/-! ## Test doubles of `migration_test.go` -/

/-- `fakeIssuer`. -/
structure fakeIssuer where
  token : String
  err : Option GoError
  deriving DecidableEq, Repr

/-- `fakeDialer`: a pointer receiver, so its fields are the external state. -/
structure fakeDialer where
  opened : Bool
  addr : String
  token : String
  err : Option GoError
  deriving DecidableEq, Repr

/-- `fakeIssuer.IssueToken`. -/
def fakeIssuer.IssueToken (f : fakeIssuer) : TokenIssuer fakeDialer where
  IssueToken := fun _ _ s =>
    match f.err with
    | some e => (("", some e), s)
    | none => ((f.token, none), s)

/-- `(*fakeDialer).Open`. -/
def fakeDialer.Open : PathDialer fakeDialer where
  Open := fun _ targetAddr token f =>
    match f.err with
    | some e => (some e, f)
    | none => (none, { f with opened := true, addr := targetAddr, token := token })

/-- The zero value `&fakeDialer{}` with an empty call log. -/
def freshWorld : World fakeDialer :=
  { ext := { opened := false, addr := "", token := "", err := none }, calls := [] }

/-- A background context. -/
def background : Context := { id := 0 }

/-- The manager of `TestManagerMigrateConnection`, as `NewManager` builds it. -/
def exampleManager : Manager :=
  { cfg := { ServerName := "example.com", BindAddress := "0.0.0.0:443",
             EnableECH := false, IdleTimeout := 30 * Second },
    closed := false, started := false }

/-- A migrator over the test doubles holding the given token. -/
def fakeMigrator (issued : fakeIssuer) (held : String) : Migrator fakeDialer :=
  { issuer := issued.IssueToken, dialer := fakeDialer.Open, token := held }

/-- An error some capability returns. -/
def errBackend : GoError := .errorsNew "backend unavailable"

/-- A world whose dialer fails every call. -/
def failingWorld : World fakeDialer :=
  { ext := { opened := false, addr := "", token := "", err := some errBackend }, calls := [] }

/-- The config of `TestManagerStartLifecycle`: `IdleTimeout` is left at zero. -/
def exampleConfig : ManagerConfig :=
  { ServerName := "example.com", BindAddress := "0.0.0.0:443",
    EnableECH := false, IdleTimeout := 0 }

/-! ## Bytes -/

/-- A Go `byte`. -/
abbrev Byte := Fin 256

/-- The conversion `byte(n)` of an unsigned integer: the low eight bits. -/
def byteOf (n : Nat) : Byte := ⟨n % 256, Nat.mod_lt n (by decide)⟩

/-- `make([]byte, n)`: `n` zero bytes. -/
def makeBytes (n : Nat) : List Byte := List.replicate n 0

/-- The builtin `copy(dst, src)`: the first `min(len(dst), len(src))` bytes of
`dst` are replaced by those of `src`.  The result is `dst` afterwards. -/
def copyBytes (dst src : List Byte) : List Byte :=
  src.take dst.length ++ dst.drop src.length

/-- `subtle.XORBytes(dst, x, y)`: the bytewise exclusive or of the first
`min(len(x), len(y))` bytes. -/
def xorBytes (x y : List Byte) : List Byte :=
  List.zipWith (fun a b => byteOf (a.val ^^^ b.val)) x y

/-- The bytes of a fixed-size array `[16]byte` that a slice was written into:
the first sixteen bytes, zero where nothing was written. -/
def block16 (l : List Byte) : List Byte := (l ++ makeBytes 16).take 16

/-- The big-endian unsigned integer held by a byte slice. -/
def beNat : List Byte → Nat
  | [] => 0
  | b :: bs => b.val * 256 ^ bs.length + beNat bs

/-- The `n` bytes of the big-endian form of an unsigned integer. -/
def beBytes : Nat → Nat → List Byte
  | 0, _ => []
  | n + 1, v => byteOf (v / 256 ^ n) :: beBytes n v

/-! ## `crypto/aes` (FIPS 197)

The block cipher as the standard defines it, on states of sixteen bytes in
input order.  Go computes the same function with tables or with the AES
instructions of the processor. -/

/-- The AES S-box. -/
def sbox : List Nat :=
  [
   0x63, 0x7c, 0x77, 0x7b, 0xf2, 0x6b, 0x6f, 0xc5, 0x30, 0x01, 0x67, 0x2b, 0xfe, 0xd7, 0xab, 0x76,
   0xca, 0x82, 0xc9, 0x7d, 0xfa, 0x59, 0x47, 0xf0, 0xad, 0xd4, 0xa2, 0xaf, 0x9c, 0xa4, 0x72, 0xc0,
   0xb7, 0xfd, 0x93, 0x26, 0x36, 0x3f, 0xf7, 0xcc, 0x34, 0xa5, 0xe5, 0xf1, 0x71, 0xd8, 0x31, 0x15,
   0x04, 0xc7, 0x23, 0xc3, 0x18, 0x96, 0x05, 0x9a, 0x07, 0x12, 0x80, 0xe2, 0xeb, 0x27, 0xb2, 0x75,
   0x09, 0x83, 0x2c, 0x1a, 0x1b, 0x6e, 0x5a, 0xa0, 0x52, 0x3b, 0xd6, 0xb3, 0x29, 0xe3, 0x2f, 0x84,
   0x53, 0xd1, 0x00, 0xed, 0x20, 0xfc, 0xb1, 0x5b, 0x6a, 0xcb, 0xbe, 0x39, 0x4a, 0x4c, 0x58, 0xcf,
   0xd0, 0xef, 0xaa, 0xfb, 0x43, 0x4d, 0x33, 0x85, 0x45, 0xf9, 0x02, 0x7f, 0x50, 0x3c, 0x9f, 0xa8,
   0x51, 0xa3, 0x40, 0x8f, 0x92, 0x9d, 0x38, 0xf5, 0xbc, 0xb6, 0xda, 0x21, 0x10, 0xff, 0xf3, 0xd2,
   0xcd, 0x0c, 0x13, 0xec, 0x5f, 0x97, 0x44, 0x17, 0xc4, 0xa7, 0x7e, 0x3d, 0x64, 0x5d, 0x19, 0x73,
   0x60, 0x81, 0x4f, 0xdc, 0x22, 0x2a, 0x90, 0x88, 0x46, 0xee, 0xb8, 0x14, 0xde, 0x5e, 0x0b, 0xdb,
   0xe0, 0x32, 0x3a, 0x0a, 0x49, 0x06, 0x24, 0x5c, 0xc2, 0xd3, 0xac, 0x62, 0x91, 0x95, 0xe4, 0x79,
   0xe7, 0xc8, 0x37, 0x6d, 0x8d, 0xd5, 0x4e, 0xa9, 0x6c, 0x56, 0xf4, 0xea, 0x65, 0x7a, 0xae, 0x08,
   0xba, 0x78, 0x25, 0x2e, 0x1c, 0xa6, 0xb4, 0xc6, 0xe8, 0xdd, 0x74, 0x1f, 0x4b, 0xbd, 0x8b, 0x8a,
   0x70, 0x3e, 0xb5, 0x66, 0x48, 0x03, 0xf6, 0x0e, 0x61, 0x35, 0x57, 0xb9, 0x86, 0xc1, 0x1d, 0x9e,
   0xe1, 0xf8, 0x98, 0x11, 0x69, 0xd9, 0x8e, 0x94, 0x9b, 0x1e, 0x87, 0xe9, 0xce, 0x55, 0x28, 0xdf,
   0x8c, 0xa1, 0x89, 0x0d, 0xbf, 0xe6, 0x42, 0x68, 0x41, 0x99, 0x2d, 0x0f, 0xb0, 0x54, 0xbb, 0x16
  ]

/-- `SubWord`, also `SubBytes`: the S-box on every byte. -/
def subBytes (s : List Nat) : List Nat := s.map (fun b => sbox.getD b 0)

/-- Multiplication by `x` in GF(2^8) modulo `x^8 + x^4 + x^3 + x + 1`. -/
def xtime (b : Nat) : Nat :=
  if 128 ≤ b then ((b * 2) % 256) ^^^ 0x1b else b * 2

/-- Bytewise exclusive or of two words or states. -/
def xorNats (x y : List Nat) : List Nat := List.zipWith (fun a b => a ^^^ b) x y

/-- `RotWord`. -/
def rotWord (w : List Nat) : List Nat := w.drop 1 ++ w.take 1

/-- The round constant word `Rcon[i]`, `i` from 1. -/
def rcon : Nat → List Nat
  | 0 => [0, 0, 0, 0]
  | 1 => [1, 0, 0, 0]
  | i + 1 => [xtime ((rcon i).getD 0 0), 0, 0, 0]

/-- The key expansion loop: `ws` holds the words `w[0..i)`, `n` words are
still to be made. -/
def expandKeyLoop (nk : Nat) : Nat → Nat → List (List Nat) → List (List Nat)
  | 0, _, ws => ws
  | n + 1, i, ws =>
      let temp := ws.getD (i - 1) []
      let temp1 :=
        if i % nk = 0 then xorNats (subBytes (rotWord temp)) (rcon (i / nk))
        else if 6 < nk ∧ i % nk = 4 then subBytes temp
        else temp
      expandKeyLoop nk n (i + 1) (ws ++ [xorNats (ws.getD (i - nk) []) temp1])

/-- The words of a key, four bytes each. -/
def keyWords : Nat → List Nat → List (List Nat)
  | 0, _ => []
  | n + 1, k => k.take 4 :: keyWords n (k.drop 4)

/-- `KeyExpansion`: the `4 * (Nr + 1)` round key words, `Nr = Nk + 6`. -/
def expandKey (key : List Nat) : List (List Nat) :=
  let nk := key.length / 4
  expandKeyLoop nk (4 * (nk + 7) - nk) nk (keyWords nk key)

/-- The round key of a round: four words, sixteen bytes. -/
def roundKey (ws : List (List Nat)) (r : Nat) : List Nat :=
  ((ws.drop (4 * r)).take 4).flatten

/-- `ShiftRows` on the state in input order (byte `r + 4c` is row `r`,
column `c`). -/
def shiftRows (s : List Nat) : List Nat :=
  (List.range 16).map (fun i => s.getD (i % 4 + 4 * ((i / 4 + i % 4) % 4)) 0)

/-- `MixColumns` on one column. -/
def mixColumn (a : List Nat) : List Nat :=
  let a0 := a.getD 0 0
  let a1 := a.getD 1 0
  let a2 := a.getD 2 0
  let a3 := a.getD 3 0
  [xtime a0 ^^^ (xtime a1 ^^^ a1) ^^^ a2 ^^^ a3,
   a0 ^^^ xtime a1 ^^^ (xtime a2 ^^^ a2) ^^^ a3,
   a0 ^^^ a1 ^^^ xtime a2 ^^^ (xtime a3 ^^^ a3),
   (xtime a0 ^^^ a0) ^^^ a1 ^^^ a2 ^^^ xtime a3]

/-- `MixColumns`. -/
def mixColumns (s : List Nat) : List Nat :=
  mixColumn (s.take 4) ++ mixColumn ((s.drop 4).take 4)
    ++ mixColumn ((s.drop 8).take 4) ++ mixColumn ((s.drop 12).take 4)

/-- The middle rounds `r, r + 1, ...` of the cipher, `n` of them. -/
def aesRounds (ws : List (List Nat)) : Nat → Nat → List Nat → List Nat
  | 0, _, s => s
  | n + 1, r, s =>
      aesRounds ws n (r + 1) (xorNats (mixColumns (shiftRows (subBytes s))) (roundKey ws r))

/-- `Cipher`: the encryption of one sixteen-byte block under a key of 16, 24
or 32 bytes. -/
def aesEncryptBlock (key : List Byte) (src : List Byte) : List Byte :=
  let ws := expandKey (key.map (fun b => b.val))
  let nr := key.length / 4 + 6
  let s0 := xorNats (src.map (fun b => b.val)) (roundKey ws 0)
  let s1 := aesRounds ws (nr - 1) 1 s0
  (xorNats (shiftRows (subBytes s1)) (roundKey ws nr)).map byteOf

/-- The result of a call that may panic instead of returning. -/
inductive Outcome (α : Type) where
  | returns (a : α)
  | panics (msg : String)
  deriving DecidableEq

/-- `cipher.Block`: the block size and the `Encrypt` method. -/
structure Block where
  BlockSize : Nat
  Encrypt : List Byte → List Byte

/-- `aes.KeySizeError(k)`. -/
def KeySizeError (k : Nat) : GoError :=
  .errorsNew ("crypto/aes: invalid key size " ++ toString k)

/-- `aes.NewCipher(key)`: a key of 16, 24 or 32 bytes gives the AES block
cipher, another length a `KeySizeError`. -/
def aesNewCipher (key : List Byte) : Except GoError Block :=
  if key.length = 16 ∨ key.length = 24 ∨ key.length = 32 then
    .ok { BlockSize := 16, Encrypt := aesEncryptBlock key }
  else
    .error (KeySizeError key.length)

/-! ## `crypto/cipher`: GCM (NIST SP 800-38D)

`NewGCM`, `Seal` and `Open` with their length checks, counter mode and GHASH.
Blocks of the field GF(2^128) are big-endian integers; Go multiplies with
four-bit tables, here the multiplication is the bitwise one of the standard. -/

/-- The AEAD that `cipher.NewGCM` returns: the block cipher, the hash key
`E(0^128)` read as a big-endian integer, the nonce size and the tag size. -/
structure GCM where
  cipher : Block
  hashKey : Nat
  nonceSize : Nat
  tagSize : Nat

/-- `cipher.NewGCM(block)`: standard nonce size 12 and tag size 16. -/
def cipherNewGCM (b : Block) : Except GoError GCM :=
  if b.BlockSize ≠ 16 then
    .error (.errorsNew "cipher: NewGCM requires 128-bit block cipher")
  else
    .ok { cipher := b, hashKey := beNat (block16 (b.Encrypt (makeBytes 16))),
          nonceSize := 12, tagSize := 16 }

/-- `NonceSize()`. -/
def GCM.NonceSize (g : GCM) : Nat := g.nonceSize

/-- `errOpen`. -/
def errOpen : GoError := .errorsNew "cipher: message authentication failed"

/-- The loop of the multiplication in GF(2^128): `n` bits of `x` are left, the
next one is bit `n - 1` (bit 127 is the leftmost bit of the block). -/
def gcmMulLoop (x : Nat) : Nat → Nat → Nat → Nat
  | 0, _, z => z
  | n + 1, v, z =>
      gcmMulLoop x n (if v % 2 = 1 then (v / 2) ^^^ (0xe1 * 2 ^ 120) else v / 2)
        (if x.testBit n then z ^^^ v else z)

/-- The product of two blocks in GF(2^128), blocks read as big-endian
integers. -/
def gcmMul (x y : Nat) : Nat := gcmMulLoop x 128 y 0

/-- The GHASH update over the blocks of `d`, the last one padded with zero
bytes; the first argument bounds the number of blocks. -/
def ghashUpdate (h : Nat) : Nat → Nat → List Byte → Nat
  | 0, y, _ => y
  | n + 1, y, d =>
      if d = [] then y
      else ghashUpdate h n (gcmMul (y ^^^ beNat (block16 (d.take 16))) h) (d.drop 16)

/-- The method `auth`: GHASH of the additional data and the ciphertext with
the length block, masked with `tagMask`. -/
def GCM.auth (g : GCM) (ciphertext data tagMask : List Byte) : List Byte :=
  let y0 := ghashUpdate g.hashKey data.length 0 data
  let y1 := ghashUpdate g.hashKey ciphertext.length y0 ciphertext
  let y2 := y1 ^^^ ((data.length * 8 % 2 ^ 64) * 2 ^ 64 + ciphertext.length * 8 % 2 ^ 64)
  xorBytes (beBytes 16 (gcmMul y2 g.hashKey)) tagMask

/-- The method `deriveCounter` for a nonce of twelve bytes, the only length
that passes the nonce check of `Seal` and `Open`. -/
def deriveCounter (nonce : List Byte) : List Byte := nonce ++ [0, 0, 0, 1]

/-- The function `gcmInc32`: the last four bytes, a big-endian counter, plus one
modulo 2^32. -/
def gcmInc32 (counter : List Byte) : List Byte :=
  counter.take 12 ++ beBytes 4 ((beNat (counter.drop 12) + 1) % 2 ^ 32)

/-- The method `counterCrypt`, block after block; the first argument bounds the
number of blocks. -/
def counterCryptLoop (b : Block) : Nat → List Byte → List Byte → List Byte
  | 0, _, _ => []
  | n + 1, counter, src =>
      if src = [] then []
      else xorBytes (src.take 16) (block16 (b.Encrypt counter))
        ++ counterCryptLoop b n (gcmInc32 counter) (src.drop 16)

/-- The method `counterCrypt`. -/
def GCM.counterCrypt (g : GCM) (counter src : List Byte) : List Byte :=
  counterCryptLoop g.cipher src.length counter src

/-- `Seal(nil, nonce, plaintext, data)`. -/
def GCM.Seal (g : GCM) (nonce plaintext data : List Byte) : Outcome (List Byte) :=
  if nonce.length ≠ g.nonceSize then
    .panics "crypto/cipher: incorrect nonce length given to GCM"
  else if (2 ^ 32 - 2) * g.cipher.BlockSize < plaintext.length then
    .panics "crypto/cipher: message too large for GCM"
  else
    let counter := deriveCounter nonce
    let tagMask := block16 (g.cipher.Encrypt counter)
    let out := g.counterCrypt (gcmInc32 counter) plaintext
    .returns (out ++ g.auth out data tagMask)

/-- `Open(nil, nonce, ciphertext, data)`. -/
def GCM.Open (g : GCM) (nonce ciphertext data : List Byte) :
    Outcome (Except GoError (List Byte)) :=
  if nonce.length ≠ g.nonceSize then
    .panics "crypto/cipher: incorrect nonce length given to GCM"
  else if ciphertext.length < g.tagSize then
    .returns (.error errOpen)
  else if (2 ^ 32 - 2) * g.cipher.BlockSize + g.tagSize < ciphertext.length then
    .returns (.error errOpen)
  else
    let tag := ciphertext.drop (ciphertext.length - g.tagSize)
    let body := ciphertext.take (ciphertext.length - g.tagSize)
    let counter := deriveCounter nonce
    let tagMask := block16 (g.cipher.Encrypt counter)
    let expectedTag := g.auth body data tagMask
    if expectedTag.take g.tagSize ≠ tag then
      .returns (.error errOpen)
    else
      .returns (.ok (g.counterCrypt (gcmInc32 counter) body))

/-! ## `encoding/base64`: `RawStdEncoding` -/

/-- The bytes of an ASCII literal. -/
def asciiBytes (s : String) : List Byte := s.data.map (fun c => byteOf c.toNat)

/-- The standard alphabet `encodeStd`. -/
def encodeStd : List Byte :=
  asciiBytes "ABCDEFGHIJKLMNOPQRSTUVWXYZabcdefghijklmnopqrstuvwxyz0123456789+/"

/-- The table `enc.encode`. -/
def encodeTable (v : Nat) : Byte := encodeStd.getD v 0

/-- The table `enc.decodeMap`: the position of a byte in the alphabet, `0xff`
for a byte that is not in it. -/
def decodeMap (c : Byte) : Byte :=
  if encodeStd.indexOf c < 64 then byteOf (encodeStd.indexOf c) else 0xff

/-- `Encode` without padding: three bytes give four characters, a rest of two
bytes gives three and a rest of one byte gives two. -/
def base64Encode : List Byte → List Byte
  | b0 :: b1 :: b2 :: rest =>
      let val := b0.val <<< 16 ||| b1.val <<< 8 ||| b2.val
      encodeTable (val >>> 18 &&& 0x3F) :: encodeTable (val >>> 12 &&& 0x3F)
        :: encodeTable (val >>> 6 &&& 0x3F) :: encodeTable (val &&& 0x3F)
        :: base64Encode rest
  | [b0, b1] =>
      let val := b0.val <<< 16 ||| b1.val <<< 8
      [encodeTable (val >>> 18 &&& 0x3F), encodeTable (val >>> 12 &&& 0x3F),
        encodeTable (val >>> 6 &&& 0x3F)]
  | [b0] =>
      let val := b0.val <<< 16
      [encodeTable (val >>> 18 &&& 0x3F), encodeTable (val >>> 12 &&& 0x3F)]
  | [] => []

/-- `RawStdEncoding.EncodeToString`. -/
def EncodeToString (src : List Byte) : List Byte := base64Encode src

/-- `base64.CorruptInputError(n)`. -/
def CorruptInputError (n : Nat) : GoError :=
  .errorsNew ("illegal base64 data at input byte " ++ toString n)

/-- The end of `decodeQuantum`: the `dlen - 1` bytes that `dlen` collected
six-bit values (two, three or four of them) stand for.  The encoding is not
strict: bits left over in the last value are dropped. -/
def quantumBytes (dbuf : List Byte) : List Byte :=
  let val := (dbuf.getD 0 0).val <<< 18 ||| (dbuf.getD 1 0).val <<< 12
    ||| (dbuf.getD 2 0).val <<< 6 ||| (dbuf.getD 3 0).val
  [byteOf (val >>> 16), byteOf (val >>> 8), byteOf (val >>> 0)].take (dbuf.length - 1)

/-- `Decode` without padding and without strictness, byte after byte: `si` is
the position in the input, `dbuf` the six-bit values collected for the current
quantum, `out` the bytes decoded so far.  The result is the Go pair of the
bytes decoded and the error. -/
def decodeLoop : List Byte → Nat → List Byte → List Byte → List Byte × Option GoError
  | [], si, dbuf, out =>
      if dbuf.length = 0 then (out, none)
      else if dbuf.length = 1 then (out, some (CorruptInputError (si - 1)))
      else (out ++ quantumBytes dbuf, none)
  | c :: rest, si, dbuf, out =>
      if decodeMap c ≠ 0xff then
        if dbuf.length = 3 then
          decodeLoop rest (si + 1) [] (out ++ quantumBytes (dbuf ++ [decodeMap c]))
        else
          decodeLoop rest (si + 1) (dbuf ++ [decodeMap c]) out
      else if c = 10 ∨ c = 13 then
        decodeLoop rest (si + 1) dbuf out
      else
        (out, some (CorruptInputError si))

/-- `RawStdEncoding.DecodeString`. -/
def DecodeString (s : List Byte) : List Byte × Option GoError :=
  decodeLoop s 0 [] []

/-- The AEAD that `aes.NewCipher(key)` followed by `cipher.NewGCM(block)`
builds when the key has 16, 24 or 32 bytes. -/
def gcmOf (key : List Byte) : GCM :=
  { cipher := { BlockSize := 16, Encrypt := aesEncryptBlock key },
    hashKey := beNat (block16 (aesEncryptBlock key (makeBytes 16))),
    nonceSize := 12, tagSize := 16 }

/-- Whether a byte is a character of the standard base64 alphabet of
RFC 4648: `A` to `Z`, `a` to `z`, `0` to `9`, `+` and `/`. -/
def isStdAlphabet (c : Byte) : Bool :=
  (decide (65 ≤ c.val) && decide (c.val ≤ 90)) || (decide (97 ≤ c.val) && decide (c.val ≤ 122))
    || (decide (48 ≤ c.val) && decide (c.val ≤ 57)) || decide (c.val = 43)
    || decide (c.val = 47)

/-- The six-bit value that RFC 4648 gives a character of the standard
alphabet. -/
def sextetOf (c : Byte) : Nat :=
  if 65 ≤ c.val ∧ c.val ≤ 90 then c.val - 65
  else if 97 ≤ c.val ∧ c.val ≤ 122 then c.val - 71
  else if 48 ≤ c.val ∧ c.val ≤ 57 then c.val + 4
  else if c.val = 43 then 62
  else 63

/-- A valid unpadded standard base64 string, in the words of the claims and
of RFC 4648, independent of any decoder: every byte is a character of the
standard alphabet (no padding, no line break), the length is not one more
than a multiple of four, and the bits of the last character that encode no
byte are zero. -/
def isValidUnpaddedStdBase64 (s : List Byte) : Bool :=
  s.all isStdAlphabet && decide (s.length % 4 ≠ 1)
    && (if s.length % 4 = 2 then decide (sextetOf (s.getLastD 0) % 16 = 0)
        else if s.length % 4 = 3 then decide (sextetOf (s.getLastD 0) % 4 = 0)
        else true)

/-- The sealed value of `cdn.example.com` under the key `00 .. 1f` and the
nonce `64 .. 6f`, as `SealSNI` returns it. -/
def sealedExample : List Byte :=
  asciiBytes "ZGVmZ2hpamtsbW5vK3+wSByRN/NODjrGuQoHZr2L1GOu2TZY89qhoPzeUQ"

/-- The sealed value `sealedExample` with a CR LF line break inserted after
its thirtieth character. -/
def sealedWithLineBreak : List Byte :=
  asciiBytes "ZGVmZ2hpamtsbW5vK3+wSByRN/NODj\r\nrGuQoHZr2L1GOu2TZY89qhoPzeUQ"

/-- The sealed value `sealedExample` with its last character `Q` replaced by
`R`, which differs in bits that encode no byte. -/
def sealedWithSpareBits : List Byte :=
  asciiBytes "ZGVmZ2hpamtsbW5vK3+wSByRN/NODjrGuQoHZr2L1GOu2TZY89qhoPzeUR"

/-! ## `ech.go` -/

def ErrInvalidECHKeyLength : GoError := .errorsNew "invalid ECH key length"
def ErrCiphertextTooShort : GoError := .errorsNew "ciphertext too short"

/-- `ECHSuite` provides minimal SNI sealing/opening primitives. -/
structure ECHSuite where
  key : List Byte
  deriving DecidableEq

/-- `GenerateECHKey` creates a random 32-byte key (AES-256-GCM). -/
def GenerateECHKey (randRead : Nat → Except GoError (List Byte)) :
    Option (List Byte) × Option GoError :=
  match randRead 32 with
  | .error err => (none, some (fmtErrorfW "generate ECH key: " err))
  | .ok read => (some (copyBytes (makeBytes 32) read), none)

/-- `NewECHSuite` builds a suite from a raw AES-256 key. -/
def NewECHSuite (key : List Byte) : Option ECHSuite × Option GoError :=
  if key.length ≠ 32 then
    (none, some ErrInvalidECHKeyLength)
  else
    let keyCopy := copyBytes (makeBytes key.length) key
    (some { key := keyCopy }, none)

/-- `(*ECHSuite).SealSNI`.  A Go `string` is its bytes here, so `[]byte(sni)`
is `sni`.  `randRead n` is what `io.ReadFull(rand.Reader, buf)` gives for a
buffer of `n` bytes: an error or the bytes read into the buffer. -/
def ECHSuite.SealSNI (e : ECHSuite) (randRead : Nat → Except GoError (List Byte))
    (sni : List Byte) : Outcome (List Byte × Option GoError) :=
  match aesNewCipher e.key with
  | .error err => .returns ([], some (fmtErrorfW "create cipher: " err))
  | .ok block =>
    match cipherNewGCM block with
    | .error err => .returns ([], some (fmtErrorfW "create gcm: " err))
    | .ok gcm =>
      match randRead gcm.NonceSize with
      | .error err => .returns ([], some (fmtErrorfW "generate nonce: " err))
      | .ok read =>
        let nonce := copyBytes (makeBytes gcm.NonceSize) read
        match gcm.Seal nonce sni [] with
        | .panics msg => .panics msg
        | .returns sealed => .returns (EncodeToString (nonce ++ sealed), none)

/-- `(*ECHSuite).OpenSNI`. -/
def ECHSuite.OpenSNI (e : ECHSuite) (ciphertext : List Byte) :
    Outcome (List Byte × Option GoError) :=
  match aesNewCipher e.key with
  | .error err => .returns ([], some (fmtErrorfW "create cipher: " err))
  | .ok block =>
    match cipherNewGCM block with
    | .error err => .returns ([], some (fmtErrorfW "create gcm: " err))
    | .ok gcm =>
      match (DecodeString ciphertext).2 with
      | some err => .returns ([], some (fmtErrorfW "decode ciphertext: " err))
      | none =>
        let raw := (DecodeString ciphertext).1
        if raw.length < gcm.NonceSize then
          .returns ([], some ErrCiphertextTooShort)
        else
          let nonce := raw.take gcm.NonceSize
          let payload := raw.drop gcm.NonceSize
          match gcm.Open nonce payload [] with
          | .panics msg => .panics msg
          | .returns (.error err) => .returns ([], some (fmtErrorfW "decrypt sni: " err))
          | .returns (.ok plain) => .returns (plain, none)

/-! ## Inputs for the sealing suite -/

/-- The key `00 01 02 ... 1f`. -/
def exampleKey : List Byte := (List.range 32).map byteOf

/-- The suite that `NewECHSuite` builds from `exampleKey`. -/
def exampleSuite : ECHSuite := { key := exampleKey }

/-- A nonce of twelve bytes. -/
def exampleNonce : List Byte := (List.range 12).map (fun i => byteOf (100 + i))

/-- A random source that delivers `exampleNonce`. -/
def exampleRand (_n : Nat) : Except GoError (List Byte) := .ok exampleNonce

/-! ## Lemmas on the byte searches -/

theorem indexByteString_eq_none_iff (s : List Char) (c : Char) :
    indexByteString s c = none ↔ c ∉ s := by
  induction s with
  | nil => simp [indexByteString]
  | cons x xs ih =>
    by_cases hx : x = c
    · simp [indexByteString, hx]
    · have hx2 : ¬ c = x := fun h => hx h.symm
      cases hr : indexByteString xs c with
      | none => simp [indexByteString, hx, hx2, hr, ih.mp hr]
      | some n =>
        have : c ∈ xs := by
          by_contra hc
          rw [ih.mpr hc] at hr
          cases hr
        simp [indexByteString, hx, hr, this]

theorem indexByteString_isSome_iff (s : List Char) (c : Char) :
    (indexByteString s c).isSome = true ↔ c ∈ s := by
  rw [← not_iff_not, ← indexByteString_eq_none_iff]
  cases indexByteString s c <;> simp

theorem lastIndexByteString_eq_none_iff (s : List Char) (c : Char) :
    lastIndexByteString s c = none ↔ c ∉ s := by
  induction s with
  | nil => simp [lastIndexByteString]
  | cons x xs ih =>
    cases hr : lastIndexByteString xs c with
    | some n =>
      have : c ∈ xs := by
        by_contra hc
        rw [ih.mpr hc] at hr
        cases hr
      simp [lastIndexByteString, hr, this]
    | none =>
      have hc : c ∉ xs := ih.mp hr
      by_cases hx : x = c
      · simp [lastIndexByteString, hr, hx]
      · have hx2 : ¬ c = x := fun h => hx h.symm
        simp [lastIndexByteString, hr, hx, hx2, hc]

/-- Where the last `c` is found, the list splits there and no `c` follows. -/
theorem lastIndexByteString_some (s : List Char) (c : Char) (i : Nat)
    (h : lastIndexByteString s c = some i) :
    s = s.take i ++ c :: s.drop (i + 1) ∧ c ∉ s.drop (i + 1) := by
  induction s generalizing i with
  | nil => simp [lastIndexByteString] at h
  | cons x xs ih =>
    cases hr : lastIndexByteString xs c with
    | some n =>
      simp only [lastIndexByteString, hr, Option.some.injEq] at h
      subst h
      obtain ⟨h1, h2⟩ := ih n hr
      refine ⟨?_, by simpa using h2⟩
      simp only [List.take_succ_cons, List.drop_succ_cons, List.cons_append]
      rw [← h1]
    | none =>
      have hc : c ∉ xs := (lastIndexByteString_eq_none_iff xs c).mp hr
      by_cases hx : x = c
      · simp only [lastIndexByteString, hr, hx, if_true, Option.some.injEq] at h
        subst h
        subst hx
        simpa using hc
      · simp [lastIndexByteString, hr, hx] at h

/-- The last `c` of `h ++ c :: p` is the one written, when `p` holds none. -/
theorem lastIndexByteString_append_cons (h p : List Char) (c : Char) (hp : c ∉ p) :
    lastIndexByteString (h ++ c :: p) c = some h.length := by
  induction h with
  | nil =>
    simp [lastIndexByteString, (lastIndexByteString_eq_none_iff p c).mpr hp]
  | cons x xs ih =>
    simp [lastIndexByteString, ih]

/-! ## Lemmas on `SplitHostPort` and `ValidateDirectPath` -/

/-- An unbracketed `host:port` whose two parts hold no colon and no bracket is
split at its colon, whatever the port is made of. -/
theorem SplitHostPort_plain (h p : List Char)
    (hc : ':' ∉ h) (hl : '[' ∉ h) (hr : ']' ∉ h)
    (pc : ':' ∉ p) (pl : '[' ∉ p) (pr : ']' ∉ p) :
    SplitHostPort (String.mk (h ++ ':' :: p)) = .ok (String.mk h, String.mk p) := by
  have hlast := lastIndexByteString_append_cons h p ':' pc
  have hhead : ¬ ((h ++ ':' :: p).head? = some '[') := by
    cases h with
    | nil => simp
    | cons x xs =>
      simp only [List.cons_append, List.head?_cons, Option.some.injEq]
      intro hx
      exact hl (by simp [hx])
  have htake : (h ++ ':' :: p).take h.length = h := by simp
  have hdrop : (h ++ ':' :: p).drop (h.length + 1) = p := by simp
  have hnc : (indexByteString h ':').isSome = false := by
    simp [(indexByteString_eq_none_iff h ':').mpr hc]
  have hnl : (indexByteString (h ++ ':' :: p) '[').isSome = false := by
    have : '[' ∉ h ++ ':' :: p := by simp [hl, pl]
    simp [(indexByteString_eq_none_iff _ '[').mpr this]
  have hnr : (indexByteString (h ++ ':' :: p) ']').isSome = false := by
    have : ']' ∉ h ++ ':' :: p := by simp [hr, pr]
    simp [(indexByteString_eq_none_iff _ ']').mpr this]
  simp only [SplitHostPort, hlast, hhead, if_false, htake, hnc, splitHostPortRest,
    List.drop_zero, hnl, hnr, hdrop, Bool.false_eq_true]

/-- `ValidateDirectPath` accepts every unbracketed `host:port` whose two parts
hold no colon and no bracket: the port section is not looked into. -/
theorem ValidateDirectPath_plain (host port : String)
    (hc : ':' ∉ host.data) (hl : '[' ∉ host.data) (hr : ']' ∉ host.data)
    (pc : ':' ∉ port.data) (pl : '[' ∉ port.data) (pr : ']' ∉ port.data) :
    ValidateDirectPath (host ++ ":" ++ port) = none := by
  have hd : host ++ ":" ++ port = String.mk (host.data ++ ':' :: port.data) := by
    apply String.ext
    simp [String.data_append]
  have hne : ¬ (String.mk (host.data ++ ':' :: port.data) = "") := by
    intro h
    have := congrArg String.data h
    simp at this
  rw [hd]
  simp only [ValidateDirectPath, hne, if_false,
    SplitHostPort_plain host.data port.data hc hl hr pc pl pr]

/-- A target without a colon is rejected. -/
theorem ValidateDirectPath_no_colon (target : String) (h : ':' ∉ target.data) :
    ValidateDirectPath target = some ErrInvalidTargetAddress := by
  by_cases he : target = ""
  · simp [ValidateDirectPath, he]
  · simp [ValidateDirectPath, he, SplitHostPort,
      (lastIndexByteString_eq_none_iff target.data ':').mpr h, addrErr]

/-- A target that does not start with `[` and holds two colons or more is
rejected. -/
theorem ValidateDirectPath_many_colons (target : String)
    (hb : target.data.head? ≠ some '[') (h2 : 2 ≤ target.data.count ':') :
    ValidateDirectPath target = some ErrInvalidTargetAddress := by
  by_cases he : target = ""
  · simp [ValidateDirectPath, he]
  · cases hlast : lastIndexByteString target.data ':' with
    | none =>
      exact ValidateDirectPath_no_colon target
        ((lastIndexByteString_eq_none_iff target.data ':').mp hlast)
    | some i =>
      obtain ⟨hsplit, hafter⟩ := lastIndexByteString_some target.data ':' i hlast
      have hcount : (target.data.take i).count ':' + 1 = target.data.count ':' := by
        conv_rhs => rw [hsplit]
        rw [List.count_append, List.count_cons_self, List.count_eq_zero_of_not_mem hafter]
      have hmem : ':' ∈ target.data.take i := by
        apply List.count_pos_iff.mp
        omega
      have hsome := (indexByteString_isSome_iff (target.data.take i) ':').mpr hmem
      simp [ValidateDirectPath, he, SplitHostPort, hlast, hb, hsome, addrErr]

/-- `ValidateDirectPath` has two results only: `nil` and
`ErrInvalidTargetAddress`. -/
theorem ValidateDirectPath_cases (target : String) :
    ValidateDirectPath target = none ∨
      ValidateDirectPath target = some ErrInvalidTargetAddress := by
  unfold ValidateDirectPath
  split
  · exact Or.inr rfl
  · split
    · exact Or.inr rfl
    · exact Or.inl rfl

/-! ## The migrator: token gating -/

/-- C1: on a migrator whose stored token is empty, `OpenDirectPath` on a
syntactically valid target returns `ErrNoMigrationToken`; the migrator, the
external state and the call log are as before, so the Dialer was not called.
A migrator fresh from `NewMigrator` is such a migrator. -/
theorem OpenDirectPath_empty_token {σ : Type} (m : Migrator σ) (ctx : Context)
    (target : String) (w : World σ)
    (htoken : m.token = "") (hvalid : ValidateDirectPath target = none) :
    m.OpenDirectPath ctx target w = (some ErrNoMigrationToken, m, w) ∧
      (NewMigrator m.issuer m.dialer).OpenDirectPath ctx target w
        = (some ErrNoMigrationToken, NewMigrator m.issuer m.dialer, w) := by
  constructor
  · simp [Migrator.OpenDirectPath, hvalid, htoken]
  · simp [Migrator.OpenDirectPath, hvalid, NewMigrator]

/-- C1 on the test doubles of `TestMigratorOpenWithoutToken`. -/
theorem OpenDirectPath_empty_token_witness :
    (fakeMigrator { token := "token-1", err := none } "").OpenDirectPath background
        "10.0.0.1:8443" freshWorld
      = (some ErrNoMigrationToken, fakeMigrator { token := "token-1", err := none } "",
          freshWorld) :=
  (OpenDirectPath_empty_token (fakeMigrator { token := "token-1", err := none } "")
    background "10.0.0.1:8443" freshWorld rfl (by decide)).1

/-- C2: when the Issuer returns a non-empty token `t` without an error,
`RequestMigrationToken` returns `(t, nil)` after exactly one Issuer call and
stores `t` over whatever token was held.  A following `OpenDirectPath` on a
valid target `a` makes exactly one more call, the Dialer call with `(a, t)`:
the external state afterwards is the one that call leaves, the log has that
one entry more, the token stored is still `t`, and the result is the Dialer's
answer, `nil` when the Dialer succeeds and its error wrapped otherwise. -/
theorem RequestMigrationToken_then_OpenDirectPath {σ : Type} (m : Migrator σ)
    (ctx ctx2 : Context) (sessionID a t : String) (w : World σ)
    (ht : t ≠ "") (hvalid : ValidateDirectPath a = none)
    (hissue : (m.issuer.IssueToken ctx sessionID w.ext).1 = (t, none)) :
    m.RequestMigrationToken ctx sessionID w
      = ((t, none), { m with token := t },
          { ext := (m.issuer.IssueToken ctx sessionID w.ext).2,
            calls := w.calls ++ [Call.issueToken ctx sessionID] }) ∧
    (m.RequestMigrationToken ctx sessionID w).2.1.OpenDirectPath ctx2 a
        (m.RequestMigrationToken ctx sessionID w).2.2
      = (((m.dialer.Open ctx2 a t (m.issuer.IssueToken ctx sessionID w.ext).2).1).map
            (fmtErrorfW "open direct path: "),
          { m with token := t },
          { ext := (m.dialer.Open ctx2 a t (m.issuer.IssueToken ctx sessionID w.ext).2).2,
            calls := w.calls ++ [Call.issueToken ctx sessionID]
              ++ [Call.dialerOpen ctx2 a t] }) ∧
    ((m.dialer.Open ctx2 a t (m.issuer.IssueToken ctx sessionID w.ext).2).1 = none →
      ((m.RequestMigrationToken ctx sessionID w).2.1.OpenDirectPath ctx2 a
        (m.RequestMigrationToken ctx sessionID w).2.2).1 = none) := by
  have hr : m.RequestMigrationToken ctx sessionID w
      = ((t, none), { m with token := t },
          { ext := (m.issuer.IssueToken ctx sessionID w.ext).2,
            calls := w.calls ++ [Call.issueToken ctx sessionID] }) := by
    simp [Migrator.RequestMigrationToken, Migrator.callIssueToken, hissue]
  have ho : (m.RequestMigrationToken ctx sessionID w).2.1.OpenDirectPath ctx2 a
        (m.RequestMigrationToken ctx sessionID w).2.2
      = (((m.dialer.Open ctx2 a t (m.issuer.IssueToken ctx sessionID w.ext).2).1).map
            (fmtErrorfW "open direct path: "),
          { m with token := t },
          { ext := (m.dialer.Open ctx2 a t (m.issuer.IssueToken ctx sessionID w.ext).2).2,
            calls := w.calls ++ [Call.issueToken ctx sessionID]
              ++ [Call.dialerOpen ctx2 a t] }) := by
    rw [hr]
    simp only [Migrator.OpenDirectPath, hvalid, ht, if_false, Migrator.callOpen]
    cases (m.dialer.Open ctx2 a t (m.issuer.IssueToken ctx sessionID w.ext).2).1 <;> rfl
  refine ⟨hr, ho, ?_⟩
  intro hdial
  rw [ho, hdial]
  rfl

/-- C2 on the test doubles of `TestMigratorRequestAndOpen`: the Issuer returns
`"token-1"` to a migrator holding `"old"`; after the open the Dialer has
`opened` set and has recorded the address and the token. -/
theorem RequestMigrationToken_then_OpenDirectPath_witness :
    (fakeMigrator { token := "token-1", err := none } "old").RequestMigrationToken background
        "session-1" freshWorld
      = (("token-1", none), fakeMigrator { token := "token-1", err := none } "token-1",
          { ext := freshWorld.ext, calls := [Call.issueToken background "session-1"] }) ∧
    ((fakeMigrator { token := "token-1", err := none } "old").RequestMigrationToken background
        "session-1" freshWorld).2.1.OpenDirectPath background "10.0.0.1:8443"
        ((fakeMigrator { token := "token-1", err := none } "old").RequestMigrationToken
          background "session-1" freshWorld).2.2
      = (none, fakeMigrator { token := "token-1", err := none } "token-1",
          { ext := { opened := true, addr := "10.0.0.1:8443", token := "token-1",
                     err := none },
            calls := [Call.issueToken background "session-1",
              Call.dialerOpen background "10.0.0.1:8443" "token-1"] }) :=
  have h := RequestMigrationToken_then_OpenDirectPath
    (fakeMigrator { token := "token-1", err := none } "old") background background
    "session-1" "10.0.0.1:8443" "token-1" freshWorld (by decide) (by decide) rfl
  ⟨h.1, h.2.1⟩

/-- C3, as stated, fails: with an Issuer that returns the empty string and no
error, `RequestMigrationToken` on a fresh migrator succeeds, the stored token
is empty, and the following `OpenDirectPath` on the valid target
`"10.0.0.1:8443"` returns `ErrNoMigrationToken` without calling the Dialer. -/
theorem RequestMigrationToken_empty_token_counterexample :
    ((fakeMigrator { token := "", err := none } "").RequestMigrationToken background
        "session-1" freshWorld).1 = ("", none) ∧
    ValidateDirectPath "10.0.0.1:8443" = none ∧
    ((fakeMigrator { token := "", err := none } "").RequestMigrationToken background
        "session-1" freshWorld).2.1.token = "" ∧
    (((fakeMigrator { token := "", err := none } "").RequestMigrationToken background
        "session-1" freshWorld).2.1.OpenDirectPath background "10.0.0.1:8443"
        ((fakeMigrator { token := "", err := none } "").RequestMigrationToken background
          "session-1" freshWorld).2.2).1 = some ErrNoMigrationToken ∧
    (((fakeMigrator { token := "", err := none } "").RequestMigrationToken background
        "session-1" freshWorld).2.1.OpenDirectPath background "10.0.0.1:8443"
        ((fakeMigrator { token := "", err := none } "").RequestMigrationToken background
          "session-1" freshWorld).2.2).2.2.calls
      = [Call.issueToken background "session-1"] := by
  decide

/-- C3, amended: after a successful `RequestMigrationToken` in which the
Issuer returned a non-empty token, the stored token is that token, hence
non-empty, and a following `OpenDirectPath` on a valid target passes the token
gate: it calls the Dialer with that token, and what it returns is `nil` or the
Dialer's error wrapped, never the sentinel `ErrNoMigrationToken`. -/
theorem RequestMigrationToken_nonempty_has_token {σ : Type} (m : Migrator σ)
    (ctx ctx2 : Context) (sessionID a t : String) (w : World σ)
    (ht : t ≠ "") (hvalid : ValidateDirectPath a = none)
    (hissue : (m.issuer.IssueToken ctx sessionID w.ext).1 = (t, none)) :
    (m.RequestMigrationToken ctx sessionID w).1.2 = none ∧
    (m.RequestMigrationToken ctx sessionID w).2.1.token ≠ "" ∧
    ((m.RequestMigrationToken ctx sessionID w).2.1.OpenDirectPath ctx2 a
        (m.RequestMigrationToken ctx sessionID w).2.2).1 ≠ some ErrNoMigrationToken ∧
    ((m.RequestMigrationToken ctx sessionID w).2.1.OpenDirectPath ctx2 a
        (m.RequestMigrationToken ctx sessionID w).2.2).1
      = ((m.dialer.Open ctx2 a t (m.RequestMigrationToken ctx sessionID w).2.2.ext).1.map
          (fmtErrorfW "open direct path: ")) ∧
    ((m.RequestMigrationToken ctx sessionID w).2.1.OpenDirectPath ctx2 a
        (m.RequestMigrationToken ctx sessionID w).2.2).2.2.calls
      = w.calls ++ [Call.issueToken ctx sessionID, Call.dialerOpen ctx2 a t] := by
  have hr : m.RequestMigrationToken ctx sessionID w
      = ((t, none), { m with token := t },
          { ext := (m.issuer.IssueToken ctx sessionID w.ext).2,
            calls := w.calls ++ [Call.issueToken ctx sessionID] }) := by
    simp [Migrator.RequestMigrationToken, Migrator.callIssueToken, hissue]
  rw [hr]
  refine ⟨rfl, ht, ?_, ?_, ?_⟩
  · simp only [Migrator.OpenDirectPath, hvalid, ht, if_false, Migrator.callOpen]
    split
    · simp [fmtErrorfW, ErrNoMigrationToken]
    · simp
  · simp only [Migrator.OpenDirectPath, hvalid, ht, if_false, Migrator.callOpen]
    split <;> simp_all
  · simp only [Migrator.OpenDirectPath, hvalid, ht, if_false, Migrator.callOpen]
    split <;> simp

/-- C3, amended, on the test doubles: the Issuer returns `"token-1"`. -/
theorem RequestMigrationToken_nonempty_has_token_witness :
    ((fakeMigrator { token := "token-1", err := none } "").RequestMigrationToken background
        "session-1" freshWorld).2.1.token ≠ "" ∧
    (((fakeMigrator { token := "token-1", err := none } "").RequestMigrationToken background
        "session-1" freshWorld).2.1.OpenDirectPath background "10.0.0.1:8443"
        ((fakeMigrator { token := "token-1", err := none } "").RequestMigrationToken
          background "session-1" freshWorld).2.2).1 ≠ some ErrNoMigrationToken :=
  have h := RequestMigrationToken_nonempty_has_token
    (fakeMigrator { token := "token-1", err := none } "") background background
    "session-1" "10.0.0.1:8443" "token-1" freshWorld (by decide) (by decide) rfl
  ⟨h.2.1, h.2.2.1⟩

/-- C4: when the Issuer returns an error `e` (with whatever string),
`RequestMigrationToken` returns the empty token and the error
`fmt.Errorf("request migration token: %w", e)`, which unwraps to `e` and
satisfies `errors.Is(·, e)`; the migrator is as before, so the token held is
still the one held before the call. -/
theorem RequestMigrationToken_issuer_error {σ : Type} (m : Migrator σ) (ctx : Context)
    (sessionID : String) (w : World σ) (e : GoError)
    (hissue : (m.issuer.IssueToken ctx sessionID w.ext).1.2 = some e) :
    (m.RequestMigrationToken ctx sessionID w).1
      = ("", some (fmtErrorfW "request migration token: " e)) ∧
    (fmtErrorfW "request migration token: " e).Unwrap = some e ∧
    errorsIs (fmtErrorfW "request migration token: " e) e = true ∧
    (m.RequestMigrationToken ctx sessionID w).2.1 = m ∧
    (m.RequestMigrationToken ctx sessionID w).2.1.token = m.token := by
  have hr : m.RequestMigrationToken ctx sessionID w
      = (("", some (fmtErrorfW "request migration token: " e)), m,
          { ext := (m.issuer.IssueToken ctx sessionID w.ext).2,
            calls := w.calls ++ [Call.issueToken ctx sessionID] }) := by
    simp [Migrator.RequestMigrationToken, Migrator.callIssueToken, hissue]
  rw [hr]
  refine ⟨rfl, rfl, ?_, rfl, rfl⟩
  cases e <;> simp [fmtErrorfW, errorsIs]

/-- C4 on the test doubles: a migrator holding `"t1"` and an Issuer that fails. -/
theorem RequestMigrationToken_issuer_error_witness :
    ((fakeMigrator { token := "t2", err := some errBackend } "t1").RequestMigrationToken
        background "session-1" freshWorld).1
      = ("", some (fmtErrorfW "request migration token: " errBackend)) ∧
    ((fakeMigrator { token := "t2", err := some errBackend } "t1").RequestMigrationToken
        background "session-1" freshWorld).2.1.token = "t1" :=
  have h := RequestMigrationToken_issuer_error
    (fakeMigrator { token := "t2", err := some errBackend } "t1") background
    "session-1" freshWorld errBackend rfl
  ⟨h.1, h.2.2.2.2⟩

/-! ## The path validator -/

/-- C5, as stated, fails: `"host:"` (empty port) and `"host:abc"` (port not
numeric) are accepted by `ValidateDirectPath`. -/
theorem ValidateDirectPath_port_counterexample :
    ValidateDirectPath "host:" = none ∧ ValidateDirectPath "host:abc" = none := by
  decide

/-- C5, amended: `ValidateDirectPath` returns `ErrInvalidTargetAddress` for the
empty string and for `"no-port"`, and it does not look into the port section:
`host:port` is accepted for every host and every port that hold no colon and
no bracket, the empty port and the ports that are not numeric included. -/
theorem ValidateDirectPath_port_unchecked (host port : String)
    (hc : ':' ∉ host.data) (hl : '[' ∉ host.data) (hr : ']' ∉ host.data)
    (pc : ':' ∉ port.data) (pl : '[' ∉ port.data) (pr : ']' ∉ port.data) :
    ValidateDirectPath (host ++ ":" ++ port) = none ∧
    ValidateDirectPath "" = some ErrInvalidTargetAddress ∧
    ValidateDirectPath "no-port" = some ErrInvalidTargetAddress :=
  ⟨ValidateDirectPath_plain host port hc hl hr pc pl pr, by decide, by decide⟩

/-- C5, amended, at the host `"host"` with the port `"abc"`. -/
theorem ValidateDirectPath_port_unchecked_witness :
    ValidateDirectPath ("host" ++ ":" ++ "abc") = none :=
  (ValidateDirectPath_port_unchecked "host" "abc" (by decide) (by decide) (by decide)
    (by decide) (by decide) (by decide)).1

/-- C6: `ValidateDirectPath` returns `nil` for `host:port` with a host holding
no colon and no bracket and a port made of decimal digits (the non-empty hosts
and ports among them); it returns `ErrInvalidTargetAddress` for the empty
string, for every target without a colon, and for every target that does not
open with a bracket and holds more than one colon. -/
theorem ValidateDirectPath_host_port (host port noColon manyColons : String)
    (hc : ':' ∉ host.data) (hl : '[' ∉ host.data) (hr : ']' ∉ host.data)
    (pdigits : ∀ c ∈ port.data, c.isDigit = true)
    (hnone : ':' ∉ noColon.data)
    (hopen : manyColons.data.head? ≠ some '[') (hmany : 1 < manyColons.data.count ':') :
    ValidateDirectPath (host ++ ":" ++ port) = none ∧
    ValidateDirectPath "" = some ErrInvalidTargetAddress ∧
    ValidateDirectPath noColon = some ErrInvalidTargetAddress ∧
    ValidateDirectPath manyColons = some ErrInvalidTargetAddress := by
  have pc : ':' ∉ port.data := fun h => absurd (pdigits _ h) (by decide)
  have pl : '[' ∉ port.data := fun h => absurd (pdigits _ h) (by decide)
  have pr : ']' ∉ port.data := fun h => absurd (pdigits _ h) (by decide)
  exact ⟨ValidateDirectPath_plain host port hc hl hr pc pl pr, by decide,
    ValidateDirectPath_no_colon noColon hnone,
    ValidateDirectPath_many_colons manyColons hopen hmany⟩

/-- C6 at `"example.com:8443"`, `"invalid"` and `"a:b:c"`. -/
theorem ValidateDirectPath_host_port_witness :
    ValidateDirectPath ("example.com" ++ ":" ++ "8443") = none ∧
    ValidateDirectPath "" = some ErrInvalidTargetAddress ∧
    ValidateDirectPath "invalid" = some ErrInvalidTargetAddress ∧
    ValidateDirectPath "a:b:c" = some ErrInvalidTargetAddress :=
  ValidateDirectPath_host_port "example.com" "8443" "invalid" "a:b:c"
    (by decide) (by decide) (by decide) (by decide) (by decide) (by decide) (by decide)

/-! ## The migrator: opening a path -/

/-- C7: on every migrator, holding a token or not, `OpenDirectPath` on a target
that `ValidateDirectPath` rejects returns `ErrInvalidTargetAddress`, which is
not `ErrNoMigrationToken` and does not wrap it; the migrator, the external
state and the call log are as before: no Dialer call, same stored token. -/
theorem OpenDirectPath_invalid_target {σ : Type} (m : Migrator σ) (ctx : Context)
    (target : String) (w : World σ) (hrej : ValidateDirectPath target ≠ none) :
    m.OpenDirectPath ctx target w = (some ErrInvalidTargetAddress, m, w) ∧
    ErrInvalidTargetAddress ≠ ErrNoMigrationToken ∧
    errorsIs ErrInvalidTargetAddress ErrNoMigrationToken = false ∧
    (m.OpenDirectPath ctx target w).2.1.token = m.token ∧
    (m.OpenDirectPath ctx target w).2.2.calls = w.calls := by
  have hv : ValidateDirectPath target = some ErrInvalidTargetAddress := by
    rcases ValidateDirectPath_cases target with h | h
    · exact absurd h hrej
    · exact h
  have ho : m.OpenDirectPath ctx target w = (some ErrInvalidTargetAddress, m, w) := by
    simp [Migrator.OpenDirectPath, hv]
  rw [ho]
  exact ⟨rfl, by decide, by decide, rfl, rfl⟩

/-- C7 on a migrator without a token and the target `"no-port"`. -/
theorem OpenDirectPath_invalid_target_witness :
    (fakeMigrator { token := "token-1", err := none } "").OpenDirectPath background
        "no-port" freshWorld
      = (some ErrInvalidTargetAddress, fakeMigrator { token := "token-1", err := none } "",
          freshWorld) :=
  (OpenDirectPath_invalid_target (fakeMigrator { token := "token-1", err := none } "")
    background "no-port" freshWorld (by decide)).1

/-- C8: `OpenDirectPath` returns the migrator as it got it, for every target
and whatever the Dialer answered, so the stored token is the same after the
call; when that token is not empty, a second `OpenDirectPath` on a valid
target, with no `RequestMigrationToken` in between, adds exactly one call to
the log: the Dialer call with the second target and the same token. -/
theorem OpenDirectPath_keeps_token {σ : Type} (m : Migrator σ) (ctx : Context)
    (target : String) (w : World σ) :
    (m.OpenDirectPath ctx target w).2.1 = m ∧
    (m.OpenDirectPath ctx target w).2.1.token = m.token ∧
    ∀ (ctx2 : Context) (target2 : String),
      m.token ≠ "" → ValidateDirectPath target2 = none →
      ((m.OpenDirectPath ctx target w).2.1.OpenDirectPath ctx2 target2
          (m.OpenDirectPath ctx target w).2.2).2.2.calls
        = (m.OpenDirectPath ctx target w).2.2.calls
          ++ [Call.dialerOpen ctx2 target2 m.token] := by
  have hm : (m.OpenDirectPath ctx target w).2.1 = m := by
    cases hv : ValidateDirectPath target with
    | some err => simp [Migrator.OpenDirectPath, hv]
    | none =>
      by_cases htok : m.token = ""
      · simp [Migrator.OpenDirectPath, hv, htok]
      · simp only [Migrator.OpenDirectPath, hv, htok, if_false]
        split <;> rfl
  refine ⟨hm, by rw [hm], ?_⟩
  intro ctx2 target2 htoken hvalid
  rw [hm]
  simp only [Migrator.OpenDirectPath, hvalid, htoken, if_false, Migrator.callOpen]
  split <;> rfl

/-- C8 on a migrator holding `"t1"` whose Dialer fails: the first open fails
with the Dialer's error wrapped, the token is still `"t1"`, and the second
open calls the Dialer again with `"t1"`. -/
theorem OpenDirectPath_keeps_token_witness :
    ((fakeMigrator { token := "t2", err := none } "t1").OpenDirectPath background
        "10.0.0.1:8443" failingWorld).1
      = some (fmtErrorfW "open direct path: " errBackend) ∧
    ((fakeMigrator { token := "t2", err := none } "t1").OpenDirectPath background
        "10.0.0.1:8443" failingWorld).2.1.token = "t1" ∧
    (((fakeMigrator { token := "t2", err := none } "t1").OpenDirectPath background
        "10.0.0.1:8443" failingWorld).2.1.OpenDirectPath background "10.0.0.2:443"
        ((fakeMigrator { token := "t2", err := none } "t1").OpenDirectPath background
          "10.0.0.1:8443" failingWorld).2.2).2.2.calls
      = ((fakeMigrator { token := "t2", err := none } "t1").OpenDirectPath background
          "10.0.0.1:8443" failingWorld).2.2.calls
        ++ [Call.dialerOpen background "10.0.0.2:443" "t1"] :=
  have h := OpenDirectPath_keeps_token (fakeMigrator { token := "t2", err := none } "t1")
    background "10.0.0.1:8443" failingWorld
  ⟨by decide, h.2.1, h.2.2 background "10.0.0.2:443" (by decide) (by decide)⟩

/-! ## `MigrateConnection` -/

/-- C9: `MigrateConnection` fails fast on an invalid `MigrationConfig`: with an
empty `SessionID` it returns `ErrNoMigrationToken` whatever the `Target`, and
with a non-empty `SessionID` and a `Target` that `ValidateDirectPath` rejects
it returns `ErrInvalidTargetAddress`; both times the migrator, the external
state and the call log are as before: no Issuer call, no Dialer call, same
stored token. -/
theorem MigrateConnection_invalid_config {σ : Type} (mgr : Manager) (ctx : Context)
    (migrator : Migrator σ) (cfg : MigrationConfig) (w : World σ) :
    (cfg.SessionID = "" →
      mgr.MigrateConnection ctx migrator cfg w = (some ErrNoMigrationToken, migrator, w)) ∧
    (cfg.SessionID ≠ "" → ValidateDirectPath cfg.Target ≠ none →
      mgr.MigrateConnection ctx migrator cfg w
        = (some ErrInvalidTargetAddress, migrator, w)) := by
  constructor
  · intro hsid
    simp [Manager.MigrateConnection, MigrationConfig.Validate, hsid]
  · intro hsid hrej
    have hv : ValidateDirectPath cfg.Target = some ErrInvalidTargetAddress := by
      rcases ValidateDirectPath_cases cfg.Target with h | h
      · exact absurd h hrej
      · exact h
    simp [Manager.MigrateConnection, MigrationConfig.Validate, hsid, hv]

/-- C9 on a migrator holding `"t1"`: an empty session id with a valid target,
and the session id `"s1"` with the target `"no-port"`. -/
theorem MigrateConnection_invalid_config_witness :
    exampleManager.MigrateConnection background
        (fakeMigrator { token := "tok-9", err := none } "t1")
        { SessionID := "", Target := "192.168.1.10:443", Timeout := 0 } freshWorld
      = (some ErrNoMigrationToken, fakeMigrator { token := "tok-9", err := none } "t1",
          freshWorld) ∧
    exampleManager.MigrateConnection background
        (fakeMigrator { token := "tok-9", err := none } "t1")
        { SessionID := "s1", Target := "no-port", Timeout := 0 } freshWorld
      = (some ErrInvalidTargetAddress, fakeMigrator { token := "tok-9", err := none } "t1",
          freshWorld) :=
  ⟨(MigrateConnection_invalid_config exampleManager background
      (fakeMigrator { token := "tok-9", err := none } "t1")
      { SessionID := "", Target := "192.168.1.10:443", Timeout := 0 } freshWorld).1 rfl,
   (MigrateConnection_invalid_config exampleManager background
      (fakeMigrator { token := "tok-9", err := none } "t1")
      { SessionID := "s1", Target := "no-port", Timeout := 0 } freshWorld).2
      (by decide) (by decide)⟩

/-- C10: for every manager and every `MigrationConfig` with a non-empty
`SessionID` and a valid `Target`, when the Issuer returns a non-empty token
`t` without an error and the Dialer then succeeds, `MigrateConnection` returns
`nil`; the calls made are one Issuer call followed by exactly one Dialer call,
with exactly `(Target, t)`, the external state afterwards is the one that
Dialer call leaves, and `t` is the token stored. -/
theorem MigrateConnection_success {σ : Type} (mgr : Manager) (ctx : Context)
    (migrator : Migrator σ) (cfg : MigrationConfig) (w : World σ) (t : String)
    (hsid : cfg.SessionID ≠ "") (hvalid : ValidateDirectPath cfg.Target = none)
    (ht : t ≠ "")
    (hissue : (migrator.issuer.IssueToken ctx cfg.SessionID w.ext).1 = (t, none))
    (hdial : (migrator.dialer.Open ctx cfg.Target t
        (migrator.issuer.IssueToken ctx cfg.SessionID w.ext).2).1 = none) :
    mgr.MigrateConnection ctx migrator cfg w
      = (none, { migrator with token := t },
          { ext := (migrator.dialer.Open ctx cfg.Target t
              (migrator.issuer.IssueToken ctx cfg.SessionID w.ext).2).2,
            calls := w.calls ++ [Call.issueToken ctx cfg.SessionID,
              Call.dialerOpen ctx cfg.Target t] }) ∧
    (mgr.MigrateConnection ctx migrator cfg w).1 = none ∧
    (mgr.MigrateConnection ctx migrator cfg w).2.2.calls
      = w.calls ++ [Call.issueToken ctx cfg.SessionID, Call.dialerOpen ctx cfg.Target t] ∧
    (mgr.MigrateConnection ctx migrator cfg w).2.1.token = t := by
  have hr : migrator.RequestMigrationToken ctx cfg.SessionID w
      = ((t, none), { migrator with token := t },
          { ext := (migrator.issuer.IssueToken ctx cfg.SessionID w.ext).2,
            calls := w.calls ++ [Call.issueToken ctx cfg.SessionID] }) := by
    simp [Migrator.RequestMigrationToken, Migrator.callIssueToken, hissue]
  have hm : mgr.MigrateConnection ctx migrator cfg w
      = (none, { migrator with token := t },
          { ext := (migrator.dialer.Open ctx cfg.Target t
              (migrator.issuer.IssueToken ctx cfg.SessionID w.ext).2).2,
            calls := w.calls ++ [Call.issueToken ctx cfg.SessionID,
              Call.dialerOpen ctx cfg.Target t] }) := by
    simp [Manager.MigrateConnection, MigrationConfig.Validate, hsid, hvalid, hr,
      Migrator.OpenDirectPath, ht, Migrator.callOpen, hdial]
  rw [hm]
  exact ⟨rfl, rfl, rfl, rfl⟩

/-- C10 on the end-to-end scenario: session `"s1"`, target
`"192.168.1.10:443"`, an Issuer returning `"tok-9"` and a recording Dialer,
which afterwards has `opened` set and has recorded the target and the token. -/
theorem MigrateConnection_success_witness :
    exampleManager.MigrateConnection background
        (NewMigrator (fakeIssuer.IssueToken { token := "tok-9", err := none }) fakeDialer.Open)
        { SessionID := "s1", Target := "192.168.1.10:443", Timeout := 0 } freshWorld
      = (none, fakeMigrator { token := "tok-9", err := none } "tok-9",
          { ext := { opened := true, addr := "192.168.1.10:443", token := "tok-9",
                     err := none },
            calls := [Call.issueToken background "s1",
              Call.dialerOpen background "192.168.1.10:443" "tok-9"] }) :=
  (MigrateConnection_success exampleManager background
    (NewMigrator (fakeIssuer.IssueToken { token := "tok-9", err := none }) fakeDialer.Open)
    { SessionID := "s1", Target := "192.168.1.10:443", Timeout := 0 } freshWorld "tok-9"
    (by decide) (by decide) (by decide) rfl rfl).1

/-- C11: on a valid `MigrationConfig`, `MigrateConnection` stops at the first
failure.  When the Issuer returns an error `e`, the result is
`fmt.Errorf("request migration token: %w", e)`, which wraps `e`; the only call
made is the Issuer call, so the Dialer was not called, and the migrator, with
its stored token, is as before.  When the Issuer returns a non-empty token `t`
without an error, the Dialer is called with `(Target, t)`, and when it returns
an error `e` the result is `fmt.Errorf("open direct path: %w", e)`, which
wraps `e`.  When the token the Issuer returns is empty the Dialer is not
called, so it cannot fail: the result is `ErrNoMigrationToken`. -/
theorem MigrateConnection_short_circuit {σ : Type} (mgr : Manager) (ctx : Context)
    (migrator : Migrator σ) (cfg : MigrationConfig) (w : World σ)
    (hcfg : cfg.Validate = none) :
    (∀ e : GoError, (migrator.issuer.IssueToken ctx cfg.SessionID w.ext).1.2 = some e →
      mgr.MigrateConnection ctx migrator cfg w
        = (some (fmtErrorfW "request migration token: " e), migrator,
            { ext := (migrator.issuer.IssueToken ctx cfg.SessionID w.ext).2,
              calls := w.calls ++ [Call.issueToken ctx cfg.SessionID] }) ∧
      errorsIs (fmtErrorfW "request migration token: " e) e = true) ∧
    (∀ (t : String) (e : GoError),
      (migrator.issuer.IssueToken ctx cfg.SessionID w.ext).1 = (t, none) →
      t ≠ "" →
      (migrator.dialer.Open ctx cfg.Target t
        (migrator.issuer.IssueToken ctx cfg.SessionID w.ext).2).1 = some e →
      mgr.MigrateConnection ctx migrator cfg w
        = (some (fmtErrorfW "open direct path: " e), { migrator with token := t },
            { ext := (migrator.dialer.Open ctx cfg.Target t
                (migrator.issuer.IssueToken ctx cfg.SessionID w.ext).2).2,
              calls := w.calls ++ [Call.issueToken ctx cfg.SessionID,
                Call.dialerOpen ctx cfg.Target t] }) ∧
      errorsIs (fmtErrorfW "open direct path: " e) e = true) ∧
    ((migrator.issuer.IssueToken ctx cfg.SessionID w.ext).1 = ("", none) →
      mgr.MigrateConnection ctx migrator cfg w
        = (some ErrNoMigrationToken, { migrator with token := "" },
            { ext := (migrator.issuer.IssueToken ctx cfg.SessionID w.ext).2,
              calls := w.calls ++ [Call.issueToken ctx cfg.SessionID] })) := by
  have hwrap : ∀ (lead : String) (e : GoError), errorsIs (fmtErrorfW lead e) e = true := by
    intro lead e
    cases e <;> simp [fmtErrorfW, errorsIs]
  have hsid : ¬ cfg.SessionID = "" := by
    intro h
    simp [MigrationConfig.Validate, h] at hcfg
  have hvalid : ValidateDirectPath cfg.Target = none := by
    cases hv : ValidateDirectPath cfg.Target with
    | none => rfl
    | some err => simp [MigrationConfig.Validate, hsid, hv] at hcfg
  have hreq : ∀ t : String,
      (migrator.issuer.IssueToken ctx cfg.SessionID w.ext).1 = (t, none) →
      migrator.RequestMigrationToken ctx cfg.SessionID w
        = ((t, none), { migrator with token := t },
            { ext := (migrator.issuer.IssueToken ctx cfg.SessionID w.ext).2,
              calls := w.calls ++ [Call.issueToken ctx cfg.SessionID] }) := by
    intro t hissue
    simp [Migrator.RequestMigrationToken, Migrator.callIssueToken, hissue]
  refine ⟨?_, ?_, ?_⟩
  · intro e hissue
    refine ⟨?_, hwrap _ e⟩
    simp [Manager.MigrateConnection, hcfg, Migrator.RequestMigrationToken,
      Migrator.callIssueToken, hissue]
  · intro t e hissue ht hdial
    refine ⟨?_, hwrap _ e⟩
    simp [Manager.MigrateConnection, hcfg, hreq t hissue, Migrator.OpenDirectPath, hvalid,
      ht, Migrator.callOpen, hdial]
  · intro hissue
    simp [Manager.MigrateConnection, hcfg, hreq "" hissue, Migrator.OpenDirectPath, hvalid]

/-- C11, first half on a migrator holding `"t1"` with a failing Issuer; second
half with an Issuer returning `"tok-9"` and a failing Dialer. -/
theorem MigrateConnection_short_circuit_witness :
    exampleManager.MigrateConnection background
        (fakeMigrator { token := "tok-9", err := some errBackend } "t1")
        { SessionID := "s1", Target := "192.168.1.10:443", Timeout := 0 } freshWorld
      = (some (fmtErrorfW "request migration token: " errBackend),
          fakeMigrator { token := "tok-9", err := some errBackend } "t1",
          { ext := freshWorld.ext, calls := [Call.issueToken background "s1"] }) ∧
    exampleManager.MigrateConnection background
        (fakeMigrator { token := "tok-9", err := none } "t1")
        { SessionID := "s1", Target := "192.168.1.10:443", Timeout := 0 } failingWorld
      = (some (fmtErrorfW "open direct path: " errBackend),
          fakeMigrator { token := "tok-9", err := none } "tok-9",
          { ext := failingWorld.ext,
            calls := [Call.issueToken background "s1",
              Call.dialerOpen background "192.168.1.10:443" "tok-9"] }) :=
  ⟨((MigrateConnection_short_circuit exampleManager background
      (fakeMigrator { token := "tok-9", err := some errBackend } "t1")
      { SessionID := "s1", Target := "192.168.1.10:443", Timeout := 0 } freshWorld
      (by decide)).1 errBackend rfl).1,
   ((MigrateConnection_short_circuit exampleManager background
      (fakeMigrator { token := "tok-9", err := none } "t1")
      { SessionID := "s1", Target := "192.168.1.10:443", Timeout := 0 } failingWorld
      (by decide)).2.1 "tok-9" errBackend rfl (by decide) rfl).1⟩

/-! ## The manager lifecycle -/

/-- On a closed manager every sequence of lifecycle calls leaves the manager
as it is and answers each call as a closed manager does. -/
theorem performAll_of_closed (m : Manager) (hclosed : m.closed = true)
    (cs : List LifecycleCall) :
    m.performAll cs = (cs.map closedAnswer, m) := by
  induction cs with
  | nil => rfl
  | cons c cs ih =>
    have hstep : m.perform c = (closedAnswer c, m) := by
      cases c with
      | Start ctx => simp [Manager.perform, Manager.Start, hclosed, closedAnswer]
      | Close =>
        cases m
        simp_all [Manager.perform, Manager.Close, closedAnswer]
    simp [Manager.performAll, hstep, ih]

/-- Running a sequence of lifecycle calls in two parts. -/
theorem performAll_append (m : Manager) (xs ys : List LifecycleCall) :
    (m.performAll (xs ++ ys)).2 = ((m.performAll xs).2.performAll ys).2 := by
  induction xs generalizing m with
  | nil => rfl
  | cons c cs ih => simp [Manager.performAll, ih]

/-- The `started` flag after a sequence of lifecycle calls: it was set before,
or the manager was not closed and a `Start` comes before the first `Close`. -/
theorem performAll_started (m : Manager) (cs : List LifecycleCall) :
    (m.performAll cs).2.started
      = (m.started || (!m.closed && (beforeFirstClose cs).any LifecycleCall.isStart)) := by
  induction cs generalizing m with
  | nil => simp [Manager.performAll, beforeFirstClose]
  | cons c cs ih =>
    cases c with
    | Start ctx =>
      cases hc : m.closed
      · simp [Manager.performAll, Manager.perform, Manager.Start, hc, ih, beforeFirstClose,
          LifecycleCall.isStart]
      · simp [Manager.performAll, Manager.perform, Manager.Start, hc, ih]
    | Close =>
      simp [Manager.performAll, Manager.perform, Manager.Close, ih, beforeFirstClose]

/-- C12: the closed state is absorbing.  For every manager and every sequence
of `Start` and `Close` calls, right after a `Close` the manager is closed; from
there every `Start` returns `ErrManagerClosed` and every call, `Start` or
`Close`, leaves the manager exactly as that `Close` left it, so the manager
after the whole sequence is the manager right after that `Close`. -/
theorem Close_absorbing (m : Manager) (before after : List LifecycleCall) (ctx : Context) :
    ((m.performAll before).2.Close).closed = true ∧
    ((m.performAll before).2.Close).Start ctx
      = (some ErrManagerClosed, (m.performAll before).2.Close) ∧
    ((m.performAll before).2.Close).Close = (m.performAll before).2.Close ∧
    ((m.performAll before).2.Close).performAll after
      = (after.map closedAnswer, (m.performAll before).2.Close) ∧
    (m.performAll (before ++ LifecycleCall.Close :: after)).2
      = (m.performAll before).2.Close := by
  have hclosed : ((m.performAll before).2.Close).closed = true := rfl
  have hrun := performAll_of_closed _ hclosed after
  refine ⟨hclosed, ?_, rfl, hrun, ?_⟩
  · simp [Manager.Start, hclosed]
  · rw [performAll_append]
    simp [Manager.performAll, Manager.perform, hrun]

/-- C13: on a manager built by `NewManager`, `IsStarted` is false before any
call, and after every sequence of `Start` and `Close` calls it is true exactly
when some `Start` comes before the first `Close`.  On every manager that is
not closed `Start` returns `nil` and sets the flag, a second `Start` changes
nothing more, and `Close` leaves `IsStarted` as it is. -/
theorem IsStarted_iff_start_before_close (cfg : ManagerConfig) (m : Manager)
    (hnew : NewManager cfg = (some m, none)) (cs : List LifecycleCall)
    (n : Manager) (ctx ctx2 : Context) :
    m.IsStarted = false ∧
    ((m.performAll cs).2.IsStarted = true
      ↔ ∃ c ∈ beforeFirstClose cs, c.isStart = true) ∧
    (n.closed = false →
      (n.Start ctx).1 = none ∧ (n.Start ctx).2.IsStarted = true ∧
      ((n.Start ctx).2.Start ctx2) = (none, (n.Start ctx).2)) ∧
    n.Close.IsStarted = n.IsStarted := by
  have hm : m.started = false ∧ m.closed = false := by
    unfold NewManager at hnew
    split at hnew
    · simp at hnew
    · simp only [Prod.mk.injEq, Option.some.injEq, and_true] at hnew
      subst hnew
      exact ⟨rfl, rfl⟩
  refine ⟨hm.1, ?_, ?_, rfl⟩
  · simp [Manager.IsStarted, performAll_started, hm.1, hm.2]
  · intro hopen
    simp [Manager.Start, hopen, Manager.IsStarted]

/-- C13 on the manager of `TestManagerStartLifecycle` with the calls `Start`,
`Start`, `Close`, `Start`. -/
theorem IsStarted_iff_start_before_close_witness :
    NewManager exampleConfig = (some exampleManager, none) ∧
    ((exampleManager.performAll
        [LifecycleCall.Start background, LifecycleCall.Start background,
          LifecycleCall.Close, LifecycleCall.Start background]).2.IsStarted = true
      ↔ ∃ c ∈ beforeFirstClose
          [LifecycleCall.Start background, LifecycleCall.Start background,
            LifecycleCall.Close, LifecycleCall.Start background], c.isStart = true) :=
  ⟨by decide,
   (IsStarted_iff_start_before_close exampleConfig exampleManager (by decide)
      [LifecycleCall.Start background, LifecycleCall.Start background,
        LifecycleCall.Close, LifecycleCall.Start background]
      exampleManager background background).2.1⟩

/-! ## Manager configuration -/

/-- C14 on the code: with `ServerName` and `BindAddress` set and `IdleTimeout`
zero, `c.Validate()` returns `nil`, and the 30 seconds are written to the
method's own copy of the receiver only; the caller's `c` has `IdleTimeout`
zero after the call as before it, not 30 seconds. -/
theorem Validate_default_not_observed :
    (exampleConfig.callValidate).1 = none ∧
    (exampleConfig.Validate).2.IdleTimeout = 30 * Second ∧
    (exampleConfig.callValidate).2 = exampleConfig ∧
    (exampleConfig.callValidate).2.IdleTimeout = 0 ∧
    (exampleConfig.callValidate).2.IdleTimeout ≠ 30 * Second := by
  decide

/-- C15: for every config with `ServerName` and `BindAddress` set,
`NewManager` returns a manager and no error; the manager is neither started
nor closed, and its `Config()` is the given config with `IdleTimeout` replaced
by 30 seconds when it was zero or negative and kept when it was positive. -/
theorem NewManager_created (c : ManagerConfig)
    (hname : c.ServerName ≠ "") (hbind : c.BindAddress ≠ "") :
    ∃ m : Manager, NewManager c = (some m, none) ∧
      m.IsStarted = false ∧ m.closed = false ∧
      m.Config.ServerName = c.ServerName ∧ m.Config.BindAddress = c.BindAddress ∧
      m.Config.EnableECH = c.EnableECH ∧
      (c.IdleTimeout ≤ 0 → m.Config = { c with IdleTimeout := 30 * Second }) ∧
      (0 < c.IdleTimeout → m.Config = c) := by
  have hv : (c.Validate).1 = none := by
    unfold ManagerConfig.Validate
    simp only [hname, hbind, if_false]
    split <;> rfl
  by_cases ht : c.IdleTimeout ≤ 0
  · refine ⟨{ cfg := { c with IdleTimeout := 30 * Second }, closed := false,
              started := false }, ?_, rfl, rfl, rfl, rfl, rfl, fun _ => rfl, ?_⟩
    · simp [NewManager, hv, ht]
    · intro hpos
      omega
  · refine ⟨{ cfg := c, closed := false, started := false }, ?_, rfl, rfl, rfl, rfl, rfl,
      fun h => absurd h ht, fun _ => rfl⟩
    simp [NewManager, hv, ht]

/-- C15 on the config of `TestManagerStartLifecycle`, whose `IdleTimeout` is
zero. -/
theorem NewManager_created_witness :
    ∃ m : Manager, NewManager exampleConfig = (some m, none) ∧
      m.IsStarted = false ∧ m.closed = false ∧
      m.Config.ServerName = exampleConfig.ServerName ∧
      m.Config.BindAddress = exampleConfig.BindAddress ∧
      m.Config.EnableECH = exampleConfig.EnableECH ∧
      (exampleConfig.IdleTimeout ≤ 0 →
        m.Config = { exampleConfig with IdleTimeout := 30 * Second }) ∧
      (0 < exampleConfig.IdleTimeout → m.Config = exampleConfig) :=
  NewManager_created exampleConfig (by decide) (by decide)

/-- C16: `c.Validate()` and `NewManager(c)` return the same error:
`ErrInvalidServerName` exactly when `ServerName` is empty,
`ErrInvalidBindAddress` exactly when `ServerName` is set and `BindAddress` is
empty, and `nil` exactly when both are set.  `NewManager` returns a manager
exactly when it returns no error; the zero config is rejected with
`ErrInvalidServerName` and no manager. -/
theorem Validate_NewManager_errors (c : ManagerConfig) :
    ((c.Validate).1 = some ErrInvalidServerName ↔ c.ServerName = "") ∧
    ((c.Validate).1 = some ErrInvalidBindAddress
      ↔ c.ServerName ≠ "" ∧ c.BindAddress = "") ∧
    ((c.Validate).1 = none ↔ c.ServerName ≠ "" ∧ c.BindAddress ≠ "") ∧
    (NewManager c).2 = (c.Validate).1 ∧
    ((NewManager c).1 = none ↔ (NewManager c).2 ≠ none) ∧
    NewManager { ServerName := "", BindAddress := "", EnableECH := false, IdleTimeout := 0 }
      = (none, some ErrInvalidServerName) := by
  have hne : ErrInvalidServerName ≠ ErrInvalidBindAddress := by decide
  have hnm : (NewManager c).2 = (c.Validate).1 ∧
      ((NewManager c).1 = none ↔ (NewManager c).2 ≠ none) := by
    unfold NewManager
    cases (c.Validate).1 <;> simp
  refine ⟨?_, ?_, ?_, hnm.1, hnm.2, by decide⟩
  · by_cases hname : c.ServerName = ""
    · simp [ManagerConfig.Validate, hname]
    · by_cases hbind : c.BindAddress = ""
      · simp [ManagerConfig.Validate, hname, hbind, hne.symm]
      · by_cases ht : c.IdleTimeout ≤ 0 <;> simp [ManagerConfig.Validate, hname, hbind, ht]
  · by_cases hname : c.ServerName = ""
    · simp [ManagerConfig.Validate, hname, hne]
    · by_cases hbind : c.BindAddress = ""
      · simp [ManagerConfig.Validate, hname, hbind]
      · by_cases ht : c.IdleTimeout ≤ 0 <;> simp [ManagerConfig.Validate, hname, hbind, ht]
  · by_cases hname : c.ServerName = ""
    · simp [ManagerConfig.Validate, hname]
    · by_cases hbind : c.BindAddress = ""
      · simp [ManagerConfig.Validate, hname, hbind]
      · by_cases ht : c.IdleTimeout ≤ 0 <;> simp [ManagerConfig.Validate, hname, hbind, ht]

/-! ## Lemmas on bytes -/

theorem and_63 (x : Nat) : x &&& 0x3F = x % 64 :=
  Nat.and_pow_two_sub_one_eq_mod x 6

/-- A bitwise or with a number below `2 ^ i` is a sum when the other side is a
multiple of `2 ^ i`. -/
theorem or_eq_add_of_dvd (x b i : Nat) (hx : 2 ^ i ∣ x) (hb : b < 2 ^ i) :
    x ||| b = x + b := by
  obtain ⟨a, rfl⟩ := hx
  exact (Nat.mul_add_lt_is_or hb a).symm

theorem byteOf_val (b : Byte) : byteOf b.val = b := by
  apply Fin.ext
  simp [byteOf, Nat.mod_eq_of_lt b.isLt]

theorem byteOf_val_of_lt (n : Nat) (h : n < 256) : (byteOf n).val = n := by
  simp [byteOf, Nat.mod_eq_of_lt h]

/-- The 24 bits of three bytes as one number. -/
theorem pack3 (a b c : Nat) (hb : b < 256) (hc : c < 256) :
    a <<< 16 ||| b <<< 8 ||| c = a * 65536 + b * 256 + c := by
  rw [Nat.shiftLeft_eq, Nat.shiftLeft_eq]
  rw [or_eq_add_of_dvd (a * 2 ^ 16) (b * 2 ^ 8) 16 (by omega) (by omega)]
  rw [or_eq_add_of_dvd (a * 2 ^ 16 + b * 2 ^ 8) c 8 (by omega) (by omega)]

/-- The 24 bits of four six-bit values as one number. -/
theorem pack4 (a b c d : Nat) (hb : b < 64) (hc : c < 64) (hd : d < 64) :
    a <<< 18 ||| b <<< 12 ||| c <<< 6 ||| d = a * 262144 + b * 4096 + c * 64 + d := by
  rw [Nat.shiftLeft_eq, Nat.shiftLeft_eq, Nat.shiftLeft_eq]
  rw [or_eq_add_of_dvd (a * 2 ^ 18) (b * 2 ^ 12) 18 (by omega) (by omega)]
  rw [or_eq_add_of_dvd (a * 2 ^ 18 + b * 2 ^ 12) (c * 2 ^ 6) 12 (by omega) (by omega)]
  rw [or_eq_add_of_dvd (a * 2 ^ 18 + b * 2 ^ 12 + c * 2 ^ 6) d 6 (by omega) (by omega)]

/-- The decode table undoes the encode table. -/
theorem decodeMap_encodeTable (v : Fin 64) : decodeMap (encodeTable v.val) = byteOf v.val := by
  revert v
  decide

theorem decodeMap_encodeTable_lt (v : Nat) (h : v < 64) :
    decodeMap (encodeTable v) = byteOf v ∧ decodeMap (encodeTable v) ≠ 0xff ∧
      (decodeMap (encodeTable v)).val = v := by
  have := decodeMap_encodeTable ⟨v, h⟩
  simp only at this
  rw [this]
  refine ⟨rfl, ?_, byteOf_val_of_lt v (by omega)⟩
  intro hff
  have := congrArg Fin.val hff
  rw [byteOf_val_of_lt v (by omega)] at this
  have h255 : ((0xff : Byte) : Nat) = 255 := rfl
  omega

theorem byteOf_eq (n : Nat) (b : Byte) (h : n % 256 = b.val) : byteOf n = b :=
  Fin.ext h

/-- Four characters made from three bytes decode to these bytes. -/
theorem quantumBytes_three (b0 b1 b2 : Byte) :
    quantumBytes
      [decodeMap (encodeTable ((b0.val <<< 16 ||| b1.val <<< 8 ||| b2.val) >>> 18 &&& 0x3F)),
       decodeMap (encodeTable ((b0.val <<< 16 ||| b1.val <<< 8 ||| b2.val) >>> 12 &&& 0x3F)),
       decodeMap (encodeTable ((b0.val <<< 16 ||| b1.val <<< 8 ||| b2.val) >>> 6 &&& 0x3F)),
       decodeMap (encodeTable ((b0.val <<< 16 ||| b1.val <<< 8 ||| b2.val) &&& 0x3F))]
      = [b0, b1, b2] := by
  have h0 := b0.isLt
  have h1 := b1.isLt
  have h2 := b2.isLt
  rw [pack3 _ _ _ h1 h2]
  simp only [and_63, Nat.shiftRight_eq_div_pow]
  rw [(decodeMap_encodeTable_lt _ (Nat.mod_lt _ (by decide))).1,
    (decodeMap_encodeTable_lt _ (Nat.mod_lt _ (by decide))).1,
    (decodeMap_encodeTable_lt _ (Nat.mod_lt _ (by decide))).1,
    (decodeMap_encodeTable_lt _ (Nat.mod_lt _ (by decide))).1]
  simp only [quantumBytes, List.getD_cons_zero, List.getD_cons_succ, List.length_cons,
    List.length_nil]
  rw [byteOf_val_of_lt _ (by omega), byteOf_val_of_lt _ (by omega),
    byteOf_val_of_lt _ (by omega), byteOf_val_of_lt _ (by omega)]
  rw [pack4 _ _ _ _ (by omega) (by omega) (by omega)]
  simp only [Nat.shiftRight_eq_div_pow]
  rw [byteOf_eq _ b0, byteOf_eq _ b1, byteOf_eq _ b2]
  · rfl
  all_goals omega

/-- Three characters made from a rest of two bytes decode to these bytes. -/
theorem quantumBytes_two (b0 b1 : Byte) :
    quantumBytes
      [decodeMap (encodeTable ((b0.val <<< 16 ||| b1.val <<< 8) >>> 18 &&& 0x3F)),
       decodeMap (encodeTable ((b0.val <<< 16 ||| b1.val <<< 8) >>> 12 &&& 0x3F)),
       decodeMap (encodeTable ((b0.val <<< 16 ||| b1.val <<< 8) >>> 6 &&& 0x3F))]
      = [b0, b1] := by
  have h0 := b0.isLt
  have h1 := b1.isLt
  have hp : b0.val <<< 16 ||| b1.val <<< 8 = b0.val * 65536 + b1.val * 256 := by
    have := pack3 b0.val b1.val 0 h1 (by decide)
    simpa using this
  rw [hp]
  simp only [and_63, Nat.shiftRight_eq_div_pow]
  rw [(decodeMap_encodeTable_lt _ (Nat.mod_lt _ (by decide))).1,
    (decodeMap_encodeTable_lt _ (Nat.mod_lt _ (by decide))).1,
    (decodeMap_encodeTable_lt _ (Nat.mod_lt _ (by decide))).1]
  simp only [quantumBytes, List.getD_cons_zero, List.getD_cons_succ, List.length_cons,
    List.length_nil, List.getD_nil]
  rw [byteOf_val_of_lt _ (by omega), byteOf_val_of_lt _ (by omega),
    byteOf_val_of_lt _ (by omega)]
  rw [pack4 _ _ _ _ (by omega) (by omega) (by decide)]
  simp only [Nat.shiftRight_eq_div_pow]
  rw [byteOf_eq _ b0, byteOf_eq _ b1]
  · rfl
  all_goals omega

/-- Two characters made from a rest of one byte decode to this byte. -/
theorem quantumBytes_one (b0 : Byte) :
    quantumBytes
      [decodeMap (encodeTable ((b0.val <<< 16) >>> 18 &&& 0x3F)),
       decodeMap (encodeTable ((b0.val <<< 16) >>> 12 &&& 0x3F))]
      = [b0] := by
  have h0 := b0.isLt
  rw [Nat.shiftLeft_eq]
  simp only [and_63, Nat.shiftRight_eq_div_pow]
  rw [(decodeMap_encodeTable_lt _ (Nat.mod_lt _ (by decide))).1,
    (decodeMap_encodeTable_lt _ (Nat.mod_lt _ (by decide))).1]
  simp only [quantumBytes, List.getD_cons_zero, List.getD_cons_succ, List.length_cons,
    List.length_nil, List.getD_nil]
  rw [byteOf_val_of_lt _ (by omega), byteOf_val_of_lt _ (by omega)]
  rw [pack4 _ _ _ _ (by omega) (by decide) (by decide)]
  simp only [Nat.shiftRight_eq_div_pow]
  rw [byteOf_eq _ b0]
  · rfl
  omega

/-- One step of the decoder on a character of the alphabet. -/
theorem decodeLoop_alphabet (c : Byte) (rest : List Byte) (si : Nat) (dbuf out : List Byte)
    (h : decodeMap c ≠ 0xff) :
    decodeLoop (c :: rest) si dbuf out
      = if dbuf.length = 3 then
          decodeLoop rest (si + 1) [] (out ++ quantumBytes (dbuf ++ [decodeMap c]))
        else decodeLoop rest (si + 1) (dbuf ++ [decodeMap c]) out := by
  simp [decodeLoop, h]

/-- A character that the encoder writes is in the alphabet. -/
theorem decodeMap_encodeTable_and (x : Nat) : decodeMap (encodeTable (x &&& 0x3F)) ≠ 0xff := by
  rw [and_63]
  exact (decodeMap_encodeTable_lt _ (Nat.mod_lt _ (by decide))).2.1

/-- Decoding what the encoder wrote gives the bytes back, after whatever was
decoded before. -/
theorem decodeLoop_base64Encode (raw : List Byte) :
    ∀ (si : Nat) (out : List Byte),
      decodeLoop (base64Encode raw) si [] out = (out ++ raw, none) := by
  induction raw using base64Encode.induct with
  | case1 b0 b1 b2 rest ih =>
    intro si out
    simp only [base64Encode]
    rw [decodeLoop_alphabet _ _ _ _ _ (decodeMap_encodeTable_and _),
      if_neg (by simp), decodeLoop_alphabet _ _ _ _ _ (decodeMap_encodeTable_and _),
      if_neg (by simp), decodeLoop_alphabet _ _ _ _ _ (decodeMap_encodeTable_and _),
      if_neg (by simp), decodeLoop_alphabet _ _ _ _ _ (decodeMap_encodeTable_and _),
      if_pos (by rfl)]
    simp only [List.nil_append, List.cons_append]
    rw [quantumBytes_three, ih]
    simp
  | case2 b0 b1 =>
    intro si out
    simp only [base64Encode]
    rw [decodeLoop_alphabet _ _ _ _ _ (decodeMap_encodeTable_and _),
      if_neg (by simp), decodeLoop_alphabet _ _ _ _ _ (decodeMap_encodeTable_and _),
      if_neg (by simp), decodeLoop_alphabet _ _ _ _ _ (decodeMap_encodeTable_and _),
      if_neg (by simp)]
    simp only [List.nil_append, List.cons_append, decodeLoop, List.length_cons,
      List.length_nil]
    rw [quantumBytes_two]
    simp
  | case3 b0 =>
    intro si out
    simp only [base64Encode]
    rw [decodeLoop_alphabet _ _ _ _ _ (decodeMap_encodeTable_and _),
      if_neg (by simp), decodeLoop_alphabet _ _ _ _ _ (decodeMap_encodeTable_and _),
      if_neg (by simp)]
    simp only [List.nil_append, List.cons_append, decodeLoop, List.length_cons,
      List.length_nil]
    rw [quantumBytes_one]
    simp
  | case4 =>
    intro si out
    simp [base64Encode, decodeLoop]

/-- `DecodeString` undoes `EncodeToString`. -/
theorem DecodeString_EncodeToString (raw : List Byte) :
    DecodeString (EncodeToString raw) = (raw, none) := by
  simpa [DecodeString, EncodeToString] using decodeLoop_base64Encode raw 0 []

/-! ## Lemmas on the decoder -/

/-- The decoder ends without an error exactly when every character is in the
alphabet or is a line break and the characters of the alphabet, with those
already collected, do not leave a single one over. -/
theorem decodeLoop_accepts (s : List Byte) :
    ∀ (si : Nat) (dbuf out : List Byte), dbuf.length ≤ 3 →
      ((decodeLoop s si dbuf out).2 = none
        ↔ (∀ c ∈ s, decodeMap c ≠ 0xff ∨ c = 10 ∨ c = 13) ∧
          (dbuf.length + (s.filter (fun c => decide (decodeMap c ≠ 0xff))).length) % 4
            ≠ 1) := by
  induction s with
  | nil =>
    intro si dbuf out hd
    by_cases h0 : dbuf.length = 0
    · simp [decodeLoop, h0]
    · by_cases h1 : dbuf.length = 1
      · simp [decodeLoop, h1]
      · simp only [decodeLoop, h0, h1, if_false, List.not_mem_nil, false_imp_iff,
          implies_true, List.filter_nil, List.length_nil, Nat.add_zero, true_and, true_iff]
        omega
  | cons c rest ih =>
    intro si dbuf out hd
    by_cases hc : decodeMap c = 0xff
    · by_cases hnl : c = 10 ∨ c = 13
      · simp only [decodeLoop, hc, ne_eq, not_true_eq_false, if_false, hnl, if_true,
          ih (si + 1) dbuf out hd, List.mem_cons, forall_eq_or_imp, false_or, true_and,
          decide_False, Bool.false_eq_true, not_false_eq_true, List.filter_cons_of_neg]
      · simp [decodeLoop, hc, hnl]
    · by_cases h3 : dbuf.length = 3
      · simp only [decodeLoop, ne_eq, hc, not_false_eq_true, if_true, h3,
          ih (si + 1) [] _ (by simp), List.mem_cons, forall_eq_or_imp, true_or, true_and,
          decide_True, List.filter_cons_of_pos, List.length_cons, List.length_nil]
        constructor
        · rintro ⟨ha, hb⟩
          exact ⟨ha, by omega⟩
        · rintro ⟨ha, hb⟩
          exact ⟨ha, by omega⟩
      · simp only [decodeLoop, ne_eq, hc, not_false_eq_true, if_true, h3, if_false,
          ih (si + 1) (dbuf ++ [decodeMap c]) out (by simp; omega), List.mem_cons,
          forall_eq_or_imp, true_or, true_and, decide_True, List.filter_cons_of_pos,
          List.length_cons, List.length_append, List.length_nil]
        constructor
        · rintro ⟨ha, hb⟩
          exact ⟨ha, by omega⟩
        · rintro ⟨ha, hb⟩
          exact ⟨ha, by omega⟩

/-! ## Lemmas on GCM -/

theorem length_xorBytes (x y : List Byte) :
    (xorBytes x y).length = min x.length y.length := by
  simp [xorBytes]

theorem length_block16 (l : List Byte) : (block16 l).length = 16 := by
  simp [block16, makeBytes]

theorem length_beBytes (n v : Nat) : (beBytes n v).length = n := by
  induction n with
  | zero => rfl
  | succ n ih => simp [beBytes, ih]

/-- Masking twice with the same mask gives the bytes back. -/
theorem xorBytes_xorBytes (x y : List Byte) (h : x.length ≤ y.length) :
    xorBytes (xorBytes x y) y = x := by
  induction x generalizing y with
  | nil => simp [xorBytes]
  | cons a as ih =>
    cases y with
    | nil => simp at h
    | cons b bs =>
      have hlt : a.val ^^^ b.val < 256 :=
        @Nat.xor_lt_two_pow _ _ 8 a.isLt b.isLt
      have hab : byteOf ((byteOf (a.val ^^^ b.val)).val ^^^ b.val) = a := by
        rw [byteOf_val_of_lt _ hlt, Nat.xor_cancel_right]
        exact byteOf_val a
      have := ih bs (by simpa using h)
      simp only [xorBytes, List.zipWith_cons_cons] at this ⊢
      rw [hab, this]

theorem counterCryptLoop_nil (b : Block) (n : Nat) (counter : List Byte) :
    counterCryptLoop b n counter [] = [] := by
  cases n <;> simp [counterCryptLoop]

theorem length_counterCryptLoop (b : Block) (n : Nat) :
    ∀ (counter src : List Byte), src.length ≤ n →
      (counterCryptLoop b n counter src).length = src.length := by
  induction n with
  | zero =>
    intro counter src h
    have : src = [] := List.length_eq_zero.mp (by omega)
    simp [counterCryptLoop, this]
  | succ n ih =>
    intro counter src h
    by_cases hs : src = []
    · simp [counterCryptLoop, hs]
    · have hpos : 0 < src.length := List.length_pos.mpr hs
      simp only [counterCryptLoop, hs, if_false, List.length_append, length_xorBytes,
        List.length_take, length_block16]
      rw [ih _ _ (by simp; omega)]
      simp only [List.length_drop]
      omega

/-- Counter mode is its own inverse: with enough fuel, crypting twice from the
same counter gives the input back. -/
theorem counterCryptLoop_involutive (b : Block) (n : Nat) :
    ∀ (counter src : List Byte), src.length ≤ n →
      counterCryptLoop b n counter (counterCryptLoop b n counter src) = src := by
  induction n with
  | zero =>
    intro counter src h
    have : src = [] := List.length_eq_zero.mp (by omega)
    simp [counterCryptLoop, this]
  | succ n ih =>
    intro counter src h
    by_cases hs : src = []
    · simp [counterCryptLoop, hs]
    · have hpos : 0 < src.length := List.length_pos.mpr hs
      have hx : (xorBytes (src.take 16) (block16 (b.Encrypt counter))).length
          = min src.length 16 := by
        simp [length_xorBytes, length_block16]
        omega
      have hrest : (src.drop 16).length ≤ n := by
        simp only [List.length_drop]
        omega
      have hne : xorBytes (src.take 16) (block16 (b.Encrypt counter))
          ++ counterCryptLoop b n (gcmInc32 counter) (src.drop 16) ≠ [] := by
        intro hnil
        have := congrArg List.length hnil
        simp only [List.length_append, hx, List.length_nil] at this
        omega
      have hinner : counterCryptLoop b (n + 1) counter src
          = xorBytes (src.take 16) (block16 (b.Encrypt counter))
            ++ counterCryptLoop b n (gcmInc32 counter) (src.drop 16) := by
        rw [counterCryptLoop, if_neg hs]
      rw [hinner, counterCryptLoop, if_neg hne]
      by_cases h16 : 16 ≤ src.length
      · have hx16 : (xorBytes (src.take 16) (block16 (b.Encrypt counter))).length = 16 := by
          rw [hx]
          omega
        rw [List.take_append_of_le_length (by omega), List.take_of_length_le (by omega),
          List.drop_append_of_le_length (by omega), List.drop_of_length_le (by omega),
          List.nil_append, ih _ _ hrest,
          xorBytes_xorBytes _ _ (by simp [length_block16])]
        exact List.take_append_drop 16 src
      · have hd : src.drop 16 = [] := List.drop_of_length_le (by omega)
        have ht : src.take 16 = src := List.take_of_length_le (by omega)
        rw [hd, counterCryptLoop_nil, List.append_nil, ht,
          List.take_of_length_le (by rw [length_xorBytes, length_block16]; omega),
          List.drop_of_length_le (by rw [length_xorBytes, length_block16]; omega),
          counterCryptLoop_nil, List.append_nil,
          xorBytes_xorBytes _ _ (by rw [length_block16]; omega)]

theorem length_counterCrypt (g : GCM) (counter src : List Byte) :
    (g.counterCrypt counter src).length = src.length :=
  length_counterCryptLoop g.cipher src.length counter src (Nat.le_refl _)

theorem counterCrypt_involutive (g : GCM) (counter src : List Byte) :
    g.counterCrypt counter (g.counterCrypt counter src) = src := by
  unfold GCM.counterCrypt
  rw [length_counterCryptLoop g.cipher src.length counter src (Nat.le_refl _)]
  exact counterCryptLoop_involutive g.cipher src.length counter src (Nat.le_refl _)

theorem length_auth (g : GCM) (ciphertext data tagMask : List Byte)
    (h : tagMask.length = 16) : (g.auth ciphertext data tagMask).length = 16 := by
  simp [GCM.auth, length_xorBytes, length_beBytes, h]

/-- `Open` accepts a body followed by the tag computed over it and returns
the body crypted in counter mode. -/
theorem GCM_Open_body_tag (g : GCM) (hn : g.nonceSize = 12) (ht : g.tagSize = 16)
    (hb : g.cipher.BlockSize = 16) (nonce body : List Byte)
    (hnonce : nonce.length = 12) (hlen : body.length ≤ (2 ^ 32 - 2) * 16) :
    g.Open nonce
        (body ++ g.auth body [] (block16 (g.cipher.Encrypt (deriveCounter nonce)))) []
      = .returns (.ok (g.counterCrypt (gcmInc32 (deriveCounter nonce)) body)) := by
  have htag : (g.auth body [] (block16 (g.cipher.Encrypt (deriveCounter nonce)))).length
      = 16 := length_auth _ _ _ _ (length_block16 _)
  have hsub : (body ++ g.auth body []
      (block16 (g.cipher.Encrypt (deriveCounter nonce)))).length - 16 = body.length := by
    rw [List.length_append, htag]
    omega
  have hge : ¬ (body ++ g.auth body []
      (block16 (g.cipher.Encrypt (deriveCounter nonce)))).length < 16 := by
    rw [List.length_append, htag]
    omega
  have hle : ¬ (2 ^ 32 - 2) * 16 + 16 < (body ++ g.auth body []
      (block16 (g.cipher.Encrypt (deriveCounter nonce)))).length := by
    rw [List.length_append, htag]
    omega
  have htake : (body ++ g.auth body []
      (block16 (g.cipher.Encrypt (deriveCounter nonce)))).take body.length = body := by
    simp
  have hdrop : (body ++ g.auth body []
      (block16 (g.cipher.Encrypt (deriveCounter nonce)))).drop body.length
      = g.auth body [] (block16 (g.cipher.Encrypt (deriveCounter nonce))) := by
    simp
  have hfull : (g.auth body [] (block16 (g.cipher.Encrypt (deriveCounter nonce)))).take 16
      = g.auth body [] (block16 (g.cipher.Encrypt (deriveCounter nonce))) :=
    List.take_of_length_le (by omega)
  unfold GCM.Open
  rw [hn, ht, hb, if_neg (by simp [hnonce]), if_neg hge, if_neg hle]
  simp only [hsub, htake, hdrop, hfull, ne_eq, not_true_eq_false, if_false]

/-- What `Seal` returns on a nonce of the right length and a message within
the limit, `Open` opens to the message. -/
theorem GCM_Open_Seal (g : GCM) (hn : g.nonceSize = 12) (ht : g.tagSize = 16)
    (hb : g.cipher.BlockSize = 16) (nonce plaintext : List Byte)
    (hnonce : nonce.length = 12) (hlen : plaintext.length ≤ (2 ^ 32 - 2) * 16) :
    ∃ sealed, g.Seal nonce plaintext [] = .returns sealed ∧
      g.Open nonce sealed [] = .returns (.ok plaintext) := by
  have hseal : g.Seal nonce plaintext []
      = .returns (g.counterCrypt (gcmInc32 (deriveCounter nonce)) plaintext
          ++ g.auth (g.counterCrypt (gcmInc32 (deriveCounter nonce)) plaintext) []
              (block16 (g.cipher.Encrypt (deriveCounter nonce)))) := by
    simp only [GCM.Seal, hn, hnonce, hb, ne_eq, not_true_eq_false, if_false,
      Nat.not_lt.mpr hlen]
  refine ⟨_, hseal, ?_⟩
  rw [GCM_Open_body_tag g hn ht hb nonce _ hnonce
    (by rw [length_counterCrypt]; exact hlen), counterCrypt_involutive]

/-! ## Lemmas on the sealing suite -/

theorem copyBytes_make (key : List Byte) : copyBytes (makeBytes key.length) key = key := by
  simp [copyBytes, makeBytes]

/-- A suite that `NewECHSuite` returns holds the key it was given, and that
key has 32 bytes. -/
theorem NewECHSuite_some (key : List Byte) (e : ECHSuite)
    (h : NewECHSuite key = (some e, none)) : e.key = key ∧ key.length = 32 := by
  unfold NewECHSuite at h
  by_cases hk : key.length = 32
  · simp only [hk, ne_eq, not_true_eq_false, if_false, Prod.mk.injEq, Option.some.injEq,
      and_true] at h
    rw [← hk, copyBytes_make] at h
    exact ⟨by rw [← h], hk⟩
  · simp [hk] at h

/-- On a key of 32 bytes `aes.NewCipher` and `cipher.NewGCM` succeed. -/
theorem newCipher_newGCM (key : List Byte) (hk : key.length = 32) :
    aesNewCipher key = .ok { BlockSize := 16, Encrypt := aesEncryptBlock key } ∧
    cipherNewGCM { BlockSize := 16, Encrypt := aesEncryptBlock key } = .ok (gcmOf key) := by
  constructor
  · simp [aesNewCipher, hk]
  · simp [cipherNewGCM, gcmOf]

/-- `OpenSNI` on a suite with a key of 32 bytes, after the cipher set-up. -/
theorem OpenSNI_eq (e : ECHSuite) (hk : e.key.length = 32) (ciphertext : List Byte) :
    e.OpenSNI ciphertext
      = match (DecodeString ciphertext).2 with
        | some err => .returns ([], some (fmtErrorfW "decode ciphertext: " err))
        | none =>
          if (DecodeString ciphertext).1.length < 12 then
            .returns ([], some ErrCiphertextTooShort)
          else
            match (gcmOf e.key).Open ((DecodeString ciphertext).1.take 12)
                ((DecodeString ciphertext).1.drop 12) [] with
            | .panics msg => .panics msg
            | .returns (.error err) => .returns ([], some (fmtErrorfW "decrypt sni: " err))
            | .returns (.ok plain) => .returns (plain, none) := by
  unfold ECHSuite.OpenSNI
  rw [(newCipher_newGCM e.key hk).1]
  simp only [(newCipher_newGCM e.key hk).2]
  rfl

/-- `SealSNI` on a suite with a key of 32 bytes, after the cipher set-up. -/
theorem SealSNI_eq (e : ECHSuite) (hk : e.key.length = 32)
    (randRead : Nat → Except GoError (List Byte)) (sni : List Byte) :
    e.SealSNI randRead sni
      = match randRead 12 with
        | .error err => .returns ([], some (fmtErrorfW "generate nonce: " err))
        | .ok read =>
          match (gcmOf e.key).Seal (copyBytes (makeBytes 12) read) sni [] with
          | .panics msg => .panics msg
          | .returns sealed =>
            .returns (EncodeToString (copyBytes (makeBytes 12) read ++ sealed), none) := by
  unfold ECHSuite.SealSNI
  rw [(newCipher_newGCM e.key hk).1]
  simp only [(newCipher_newGCM e.key hk).2]
  rfl

set_option maxRecDepth 100000 in
/-- The characters of the standard alphabet are the bytes that the decode
table knows. -/
theorem isStdAlphabet_iff (c : Byte) : isStdAlphabet c = true ↔ decodeMap c ≠ 0xff := by
  revert c
  decide

/-- The decoder ends with an error on every string that holds a byte other
than a character of the alphabet, CR or LF, and on every string whose
characters of the alphabet number one more than a multiple of four. -/
theorem DecodeString_error_of_malformed (s : List Byte)
    (h : (∃ c ∈ s, isStdAlphabet c = false ∧ c ≠ 10 ∧ c ≠ 13)
      ∨ (s.filter isStdAlphabet).length % 4 = 1) :
    ∃ err, (DecodeString s).2 = some err := by
  have hfilter : s.filter isStdAlphabet
      = s.filter (fun c => decide (decodeMap c ≠ 0xff)) := by
    apply List.filter_congr
    intro c _
    by_cases hc : decodeMap c ≠ 0xff
    · simp [hc, (isStdAlphabet_iff c).mpr hc]
    · have : isStdAlphabet c = false := by
        cases ha : isStdAlphabet c with
        | false => rfl
        | true => exact absurd ((isStdAlphabet_iff c).mp ha) hc
      simp [hc, this]
  have hnone : (DecodeString s).2 ≠ none := by
    intro hacc
    unfold DecodeString at hacc
    rw [decodeLoop_accepts s 0 [] [] (by simp)] at hacc
    obtain ⟨hall, hcount⟩ := hacc
    rcases h with ⟨c, hc, hbad, h10, h13⟩ | hone
    · rcases hall c hc with hin | h | h
      · rw [(isStdAlphabet_iff c).mpr hin] at hbad
        cases hbad
      · exact h10 h
      · exact h13 h
    · rw [hfilter] at hone
      simp only [List.length_nil, Nat.zero_add] at hcount
      exact hcount hone
  cases hd : (DecodeString s).2 with
  | none => exact absurd hd hnone
  | some err => exact ⟨err, rfl⟩

theorem length_quantumBytes (dbuf : List Byte) :
    (quantumBytes dbuf).length = min 3 (dbuf.length - 1) := by
  simp [quantumBytes, Nat.min_comm]

/-- On characters of the alphabet only, the decoder returns three bytes for
every four characters, one byte for a rest of two and two for a rest of
three, and no error unless the rest is a single character. -/
theorem decodeLoop_alphabet_only (s : List Byte) :
    ∀ (si : Nat) (dbuf out : List Byte), dbuf.length ≤ 3 →
      (∀ c ∈ s, isStdAlphabet c = true) → (dbuf.length + s.length) % 4 ≠ 1 →
      (decodeLoop s si dbuf out).2 = none ∧
      (decodeLoop s si dbuf out).1.length
        = out.length + (dbuf.length + s.length) * 3 / 4 := by
  induction s with
  | nil =>
    intro si dbuf out hd _ hrest
    simp only [List.length_nil, Nat.add_zero] at hrest ⊢
    by_cases h0 : dbuf.length = 0
    · simp [decodeLoop, h0]
    · have h1 : ¬ dbuf.length = 1 := hrest ∘ (fun h => by rw [h])
      simp only [decodeLoop, h0, h1, if_false, List.length_append, length_quantumBytes,
        true_and]
      omega
  | cons c rest ih =>
    intro si dbuf out hd hall hrest
    have hc : decodeMap c ≠ 0xff := (isStdAlphabet_iff c).mp (hall c (by simp))
    have hall2 : ∀ x ∈ rest, isStdAlphabet x = true := fun x hx => hall x (by simp [hx])
    rw [decodeLoop_alphabet c rest si dbuf out hc]
    simp only [List.length_cons] at hrest ⊢
    by_cases h3 : dbuf.length = 3
    · rw [if_pos h3]
      have := ih (si + 1) [] (out ++ quantumBytes (dbuf ++ [decodeMap c])) (by simp) hall2
        (by simp only [List.length_nil]; omega)
      refine ⟨this.1, ?_⟩
      rw [this.2]
      simp only [List.length_append, length_quantumBytes, List.length_cons, List.length_nil,
        h3]
      omega
    · rw [if_neg h3]
      have := ih (si + 1) (dbuf ++ [decodeMap c]) out (by simp; omega) hall2
        (by simp only [List.length_append, List.length_cons, List.length_nil]; omega)
      refine ⟨this.1, ?_⟩
      rw [this.2]
      simp only [List.length_append, List.length_cons, List.length_nil]
      omega

/-- A valid unpadded standard base64 string decodes without an error to
three quarters of its length, rounded down. -/
theorem DecodeString_of_valid (s : List Byte) (h : isValidUnpaddedStdBase64 s = true) :
    (DecodeString s).2 = none ∧ (DecodeString s).1.length = s.length * 3 / 4 := by
  have hall : ∀ c ∈ s, isStdAlphabet c = true := by
    simp only [isValidUnpaddedStdBase64, Bool.and_eq_true, List.all_eq_true] at h
    exact h.1.1
  have hlen : s.length % 4 ≠ 1 := by
    simp only [isValidUnpaddedStdBase64, Bool.and_eq_true, decide_eq_true_eq] at h
    exact h.1.2
  have := decodeLoop_alphabet_only s 0 [] [] (by simp) hall
    (by simpa using hlen)
  simpa [DecodeString] using this

/-- Beyond the message limit of GCM `SealSNI` panics. -/
theorem SealSNI_too_large (e : ECHSuite) (hk : e.key.length = 32)
    (randRead : Nat → Except GoError (List Byte)) (nonce sni : List Byte)
    (hrand : randRead 12 = .ok nonce) (hnonce : nonce.length = 12)
    (hlen : (2 ^ 32 - 2) * 16 < sni.length) :
    e.SealSNI randRead sni = .panics "crypto/cipher: message too large for GCM" := by
  have hcopy : copyBytes (makeBytes 12) nonce = nonce := by
    rw [← hnonce]
    exact copyBytes_make nonce
  have hseal : (gcmOf e.key).Seal nonce sni []
      = .panics "crypto/cipher: message too large for GCM" := by
    unfold GCM.Seal
    rw [if_neg (by simp [gcmOf, hnonce]), if_pos (by simpa [gcmOf] using hlen)]
  rw [SealSNI_eq e hk, hrand]
  simp only [hcopy, hseal]

/-! ## The sealing suite -/

/-- C17, as stated, fails: on a string of 2^36 - 31 zero bytes, one more than
GCM allows, `SealSNI` on a suite built from a 32-byte key, with a 12-byte
nonce drawn, panics in `gcm.Seal` and returns nothing that `OpenSNI` could
open. -/
theorem SealSNI_too_large_counterexample :
    NewECHSuite exampleKey = (some exampleSuite, none) ∧
    exampleKey.length = 32 ∧ exampleNonce.length = 12 ∧
    exampleSuite.SealSNI exampleRand (makeBytes 68719476705)
      = .panics "crypto/cipher: message too large for GCM" :=
  ⟨by decide, by decide, by decide,
    SealSNI_too_large exampleSuite (by decide) exampleRand exampleNonce _ rfl (by decide)
      (by rw [makeBytes, List.length_replicate]; decide)⟩

/-- C17, amended: for every 32-byte key, every 12-byte nonce that the random
source delivers and every string of at most 2^36 - 32 bytes (the empty string
and the strings of 4KB or more among them), `NewECHSuite` builds a suite on
which `SealSNI` returns a sealed value without an error, and `OpenSNI` of that
value returns the string without an error. -/
theorem OpenSNI_SealSNI (key nonce s : List Byte)
    (randRead : Nat → Except GoError (List Byte))
    (hkey : key.length = 32) (hnonce : nonce.length = 12)
    (hrand : randRead 12 = .ok nonce) (hlen : s.length ≤ (2 ^ 32 - 2) * 16) :
    ∃ (e : ECHSuite) (sealed : List Byte),
      NewECHSuite key = (some e, none) ∧
      e.SealSNI randRead s = .returns (sealed, none) ∧
      e.OpenSNI sealed = .returns (s, none) := by
  have hcopy : copyBytes (makeBytes 12) nonce = nonce := by
    rw [← hnonce]
    exact copyBytes_make nonce
  have hnew : NewECHSuite key = (some { key := key }, none) := by
    unfold NewECHSuite
    rw [if_neg (by simp [hkey]), copyBytes_make]
  obtain ⟨body, hseal, hopen⟩ :=
    GCM_Open_Seal (gcmOf key) rfl rfl rfl nonce s hnonce hlen
  refine ⟨{ key := key }, EncodeToString (nonce ++ body), hnew, ?_, ?_⟩
  · rw [SealSNI_eq { key := key } hkey, hrand]
    simp only [hcopy, hseal]
  · rw [OpenSNI_eq { key := key } hkey, DecodeString_EncodeToString]
    have hlen12 : ¬ (nonce ++ body).length < 12 := by
      rw [List.length_append, hnonce]
      omega
    have htake : (nonce ++ body).take 12 = nonce := by
      rw [← hnonce]
      simp
    have hdrop : (nonce ++ body).drop 12 = body := by
      rw [← hnonce]
      simp
    simp only [hlen12, if_false, htake, hdrop, hopen]

/-- C17, amended, on the key `00 .. 1f`, the nonce `64 .. 6f` and the name
`cdn.example.com` of `TestECHSuiteSealOpen`. -/
theorem OpenSNI_SealSNI_witness :
    exampleKey.length = 32 ∧ exampleNonce.length = 12 ∧
    ∃ (e : ECHSuite) (sealed : List Byte),
      NewECHSuite exampleKey = (some e, none) ∧
      e.SealSNI exampleRand (asciiBytes "cdn.example.com") = .returns (sealed, none) ∧
      e.OpenSNI sealed = .returns (asciiBytes "cdn.example.com", none) :=
  ⟨by decide, by decide,
    OpenSNI_SealSNI exampleKey exampleNonce (asciiBytes "cdn.example.com") exampleRand
      (by decide) (by decide) rfl (by decide)⟩

/-- C18: `NewECHSuite(key)` returns a suite and no error exactly when the key
has 32 bytes, and then the key stored in the suite, a fresh slice filled by
`copy`, equals the given key byte for byte; for every other length it returns
no suite and `ErrInvalidECHKeyLength`, as for the lengths 0, 1, 5 (the key
`"short"` of `TestECHSuiteBadKey`), 31, 33 and 64. -/
theorem NewECHSuite_key_length (key : List Byte) :
    (NewECHSuite key = (some { key := key }, none) ↔ key.length = 32) ∧
    ((NewECHSuite key).2 = none ↔ key.length = 32) ∧
    ((NewECHSuite key).1.isSome = true ↔ key.length = 32) ∧
    (NewECHSuite key = (none, some ErrInvalidECHKeyLength) ↔ key.length ≠ 32) ∧
    NewECHSuite (makeBytes 0) = (none, some ErrInvalidECHKeyLength) ∧
    NewECHSuite (makeBytes 1) = (none, some ErrInvalidECHKeyLength) ∧
    NewECHSuite (asciiBytes "short") = (none, some ErrInvalidECHKeyLength) ∧
    NewECHSuite (makeBytes 31) = (none, some ErrInvalidECHKeyLength) ∧
    NewECHSuite (makeBytes 33) = (none, some ErrInvalidECHKeyLength) ∧
    NewECHSuite (makeBytes 64) = (none, some ErrInvalidECHKeyLength) := by
  have hcases : (key.length = 32 ∧ NewECHSuite key = (some { key := key }, none)) ∨
      (key.length ≠ 32 ∧ NewECHSuite key = (none, some ErrInvalidECHKeyLength)) := by
    by_cases hk : key.length = 32
    · left
      refine ⟨hk, ?_⟩
      unfold NewECHSuite
      rw [if_neg (by simp [hk]), copyBytes_make]
    · right
      refine ⟨hk, ?_⟩
      unfold NewECHSuite
      rw [if_pos hk]
  refine ⟨?_, ?_, ?_, ?_, by decide, by decide, by decide, by decide, by decide, by decide⟩
  · rcases hcases with ⟨hk, h⟩ | ⟨hk, h⟩
    · simp [h, hk]
    · simp [h, hk]
  · rcases hcases with ⟨hk, h⟩ | ⟨hk, h⟩
    · simp [h, hk]
    · simp [h, hk]
  · rcases hcases with ⟨hk, h⟩ | ⟨hk, h⟩
    · simp [h, hk]
    · simp [h, hk]
  · rcases hcases with ⟨hk, h⟩ | ⟨hk, h⟩
    · simp [h, hk]
    · simp [h, hk]

/-- C19, as stated, fails: the sealed value of `cdn.example.com` with a CR LF
line break inserted, and the same value with the spare bits of its last
character set, are not valid unpadded standard base64, and `OpenSNI` on the
suite that sealed the value returns the name without an error on both. -/
theorem OpenSNI_invalid_base64_counterexample :
    NewECHSuite exampleKey = (some exampleSuite, none) ∧
    exampleSuite.SealSNI exampleRand (asciiBytes "cdn.example.com")
      = .returns (sealedExample, none) ∧
    isValidUnpaddedStdBase64 sealedExample = true ∧
    isValidUnpaddedStdBase64 sealedWithLineBreak = false ∧
    exampleSuite.OpenSNI sealedWithLineBreak
      = .returns (asciiBytes "cdn.example.com", none) ∧
    isValidUnpaddedStdBase64 sealedWithSpareBits = false ∧
    exampleSuite.OpenSNI sealedWithSpareBits
      = .returns (asciiBytes "cdn.example.com", none) := by
  decide!

/-- C19, amended: on a suite built by `NewECHSuite`, `OpenSNI` rejects
malformed input before any decryption.  For every string that holds a byte
other than a character of the standard alphabet, CR or LF, such as
`"invalid$$$"` or a padded string, and for every string whose characters of
the alphabet number one more than a multiple of four, it returns the error of
the decoder wrapped.  For every valid unpadded standard base64 string of fewer
than 16 characters, which decodes to fewer than 12 bytes, the empty string
among them, and for every other string that the decoder takes and decodes to
fewer than 12 bytes, it returns `ErrCiphertextTooShort`. -/
theorem OpenSNI_rejects_malformed (key : List Byte) (e : ECHSuite)
    (hsuite : NewECHSuite key = (some e, none)) (ciphertext : List Byte) :
    ((∃ c ∈ ciphertext, isStdAlphabet c = false ∧ c ≠ 10 ∧ c ≠ 13)
        ∨ (ciphertext.filter isStdAlphabet).length % 4 = 1 →
      ∃ err, (DecodeString ciphertext).2 = some err ∧
        e.OpenSNI ciphertext
          = .returns ([], some (fmtErrorfW "decode ciphertext: " err))) ∧
    (isValidUnpaddedStdBase64 ciphertext = true → ciphertext.length < 16 →
      (DecodeString ciphertext).1.length < 12 ∧
      e.OpenSNI ciphertext = .returns ([], some ErrCiphertextTooShort)) ∧
    ((DecodeString ciphertext).2 = none → (DecodeString ciphertext).1.length < 12 →
      e.OpenSNI ciphertext = .returns ([], some ErrCiphertextTooShort)) ∧
    e.OpenSNI (asciiBytes "invalid$$$")
      = .returns ([], some (fmtErrorfW "decode ciphertext: " (CorruptInputError 7))) ∧
    e.OpenSNI [] = .returns ([], some ErrCiphertextTooShort) := by
  have hk : e.key.length = 32 := by
    obtain ⟨h1, h2⟩ := NewECHSuite_some key e hsuite
    rw [h1]
    exact h2
  have hinvalid : (DecodeString (asciiBytes "invalid$$$")).2 = some (CorruptInputError 7) := by
    decide
  have hempty : DecodeString [] = ([], none) := by decide
  have hshort : (DecodeString ciphertext).2 = none →
      (DecodeString ciphertext).1.length < 12 →
      e.OpenSNI ciphertext = .returns ([], some ErrCiphertextTooShort) := by
    intro hd hlt
    rw [OpenSNI_eq e hk, hd]
    simp only [hlt, if_true]
  refine ⟨?_, ?_, hshort, ?_, ?_⟩
  · intro hbad
    obtain ⟨err, hd⟩ := DecodeString_error_of_malformed ciphertext hbad
    refine ⟨err, hd, ?_⟩
    rw [OpenSNI_eq e hk, hd]
  · intro hgood hlen
    obtain ⟨hd, hdl⟩ := DecodeString_of_valid ciphertext hgood
    have hlt : (DecodeString ciphertext).1.length < 12 := by
      rw [hdl]
      omega
    exact ⟨hlt, hshort hd hlt⟩
  · rw [OpenSNI_eq e hk, hinvalid]
  · rw [OpenSNI_eq e hk, hempty]
    simp

/-- C19, amended, on the suite of the key `00 .. 1f`: the padded string
`"AAAA="` is rejected by the decoder and the valid string `"AAAA"` is too
short. -/
theorem OpenSNI_rejects_malformed_witness :
    (∃ err, (DecodeString (asciiBytes "AAAA=")).2 = some err ∧
      exampleSuite.OpenSNI (asciiBytes "AAAA=")
        = .returns ([], some (fmtErrorfW "decode ciphertext: " err))) ∧
    exampleSuite.OpenSNI (asciiBytes "AAAA") = .returns ([], some ErrCiphertextTooShort) :=
  ⟨(OpenSNI_rejects_malformed exampleKey exampleSuite (by decide) (asciiBytes "AAAA=")).1
      (by decide),
   ((OpenSNI_rejects_malformed exampleKey exampleSuite (by decide) (asciiBytes "AAAA")).2.1
      (by decide) (by decide)).2⟩

end Quic
